import Mathlib

/-!
Shallow embedding of the eldritch-shield hand-tracking pipeline.

Source files embedded here:
* `src/eldritch-shield/src/components/HandTracker.tsx` — the landmark
  interpreter (`onResults`): gesture classification, NDC position mapping,
  orientation quaternion.
* `src/eldritch-shield/src/components/Scene3D.tsx` — the pose stabilizer
  (`CreateRig`'s `useFrame` body).
* `src/unnamed/part_000` (the `Shield` component) — the activation/scale
  animation (`useFrame` body).

Vector and quaternion primitives (`lerp`, `normalize`, `slerp`,
`setFromUnitVectors`) are embedded from the three.js library the repository
calls into.  JavaScript numbers are modelled by `ℝ`; a second model `FP`
(`Option ℝ`, `none` = NaN) with IEEE NaN-propagation semantics is used to
analyse behaviour on non-finite landmark input.
-/

noncomputable section

open Real

/-- `THREE.Vector3`. -/
structure Vec3 where
  x : ℝ
  y : ℝ
  z : ℝ
  deriving DecidableEq

/-- `THREE.Quaternion` (components `_x, _y, _z, _w`). -/
structure Quat where
  x : ℝ
  y : ℝ
  z : ℝ
  w : ℝ
  deriving DecidableEq

/-- `Number.EPSILON` in JavaScript: `2^-52`. -/
def numberEPSILON : ℝ := ((2 : ℝ) ^ (52 : ℕ))⁻¹

/-- `Vector3.length()`: `sqrt(x² + y² + z²)`. -/
def Vec3.length (v : Vec3) : ℝ := sqrt (v.x ^ 2 + v.y ^ 2 + v.z ^ 2)

/-- `Vector3.normalize()`: `divideScalar(this.length() || 1)` — a zero length
falls back to dividing by 1, i.e. leaves the zero vector unchanged. -/
def Vec3.normalize (v : Vec3) : Vec3 :=
  if v.length = 0 then v else ⟨v.x / v.length, v.y / v.length, v.z / v.length⟩

/-- `Vector3.lerp(target, alpha)`: each component `x += (target.x - x) * alpha`. -/
def Vec3.lerp (v target : Vec3) (alpha : ℝ) : Vec3 :=
  ⟨v.x + (target.x - v.x) * alpha,
   v.y + (target.y - v.y) * alpha,
   v.z + (target.z - v.z) * alpha⟩

/-- Quaternion dot product (`Quaternion.dot`). -/
def Quat.dot (a b : Quat) : ℝ := a.x * b.x + a.y * b.y + a.z * b.z + a.w * b.w

/-- `Quaternion.length()`. -/
def Quat.length (q : Quat) : ℝ := sqrt (q.x ^ 2 + q.y ^ 2 + q.z ^ 2 + q.w ^ 2)

/-- `Quaternion.normalize()`: a zero-length quaternion becomes the identity
`(0,0,0,1)`; otherwise every component is multiplied by `1 / length`. -/
def Quat.normalize (q : Quat) : Quat :=
  let l := q.length
  if l = 0 then ⟨0, 0, 0, 1⟩
  else
    let li := 1 / l
    ⟨q.x * li, q.y * li, q.z * li, q.w * li⟩

/-- `Quaternion.setFromUnitVectors(vFrom, vTo)` from three.js: shortest-arc
rotation taking `vFrom` to `vTo`, with a dedicated branch for the
antiparallel case (`r < Number.EPSILON`). -/
def setFromUnitVectors (vFrom vTo : Vec3) : Quat :=
  let r := vFrom.x * vTo.x + vFrom.y * vTo.y + vFrom.z * vTo.z + 1
  if r < numberEPSILON then
    (if |vFrom.x| > |vFrom.z| then
      Quat.normalize ⟨-vFrom.y, vFrom.x, 0, 0⟩
    else
      Quat.normalize ⟨0, -vFrom.z, vFrom.y, 0⟩)
  else
    Quat.normalize
      ⟨vFrom.y * vTo.z - vFrom.z * vTo.y,
       vFrom.z * vTo.x - vFrom.x * vTo.z,
       vFrom.x * vTo.y - vFrom.y * vTo.x,
       r⟩

/-- JavaScript `Math.atan2(y, x)`. -/
def atan2 (y x : ℝ) : ℝ :=
  if 0 < x then arctan (y / x)
  else if x < 0 then
    (if 0 ≤ y then arctan (y / x) + π else arctan (y / x) - π)
  else if 0 < y then π / 2
  else if y < 0 then -(π / 2)
  else 0

/-- `Quaternion.slerp(qb, t)` from three.js, as a function of the receiver
`q`.  Mirrors the source: the early-outs for `t = 0` / `t = 1`, the sign
flip when the dot product is negative, the `cosHalfTheta >= 1` early-out
restoring the receiver, the near-parallel linear-interpolation branch
(`sqrSinHalfTheta <= Number.EPSILON`) followed by `normalize()`, and the
general spherical branch. -/
def Quat.slerp (q qb : Quat) (t : ℝ) : Quat :=
  if t = 0 then q
  else if t = 1 then qb
  else
    let d := q.dot qb
    let qb' : Quat := if d < 0 then ⟨-qb.x, -qb.y, -qb.z, -qb.w⟩ else qb
    let c := if d < 0 then -d else d
    if 1 ≤ c then q
    else
      let sqrSinHalfTheta := 1 - c * c
      if sqrSinHalfTheta ≤ numberEPSILON then
        Quat.normalize
          ⟨(1 - t) * q.x + t * qb'.x,
           (1 - t) * q.y + t * qb'.y,
           (1 - t) * q.z + t * qb'.z,
           (1 - t) * q.w + t * qb'.w⟩
      else
        let sinHalfTheta := sqrt sqrSinHalfTheta
        let halfTheta := atan2 sinHalfTheta c
        let ratioA := Real.sin ((1 - t) * halfTheta) / sinHalfTheta
        let ratioB := Real.sin (t * halfTheta) / sinHalfTheta
        ⟨q.x * ratioA + qb'.x * ratioB,
         q.y * ratioA + qb'.y * ratioB,
         q.z * ratioA + qb'.z * ratioB,
         q.w * ratioA + qb'.w * ratioB⟩

/-! ## Landmark interpreter (`HandTracker.tsx`, `onResults`) -/

/-- One MediaPipe hand landmark: normalized coordinates (plus the unused
relative depth `z`). -/
structure Landmark where
  x : ℝ
  y : ℝ
  z : ℝ

/-- A detected hand is an ordered set of 21 landmarks. -/
def Landmarks := Fin 21 → Landmark

/-- The `gesture` field of `HandData`:  `'OPEN' | 'FIST' | 'UNKNOWN'`. -/
inductive Gesture where
  | OPEN
  | FIST
  | UNKNOWN
  deriving DecidableEq

/-- `HandData` from `HandTracker.tsx`. -/
structure HandData where
  position : Vec3
  rotation : Quat
  gesture : Gesture

/-- The unused helper `isFingerExtended` inside `onResults` (dead code in the
source; embedded for completeness, referenced by nothing below). -/
def isFingerExtended (wrist tip mcp : Landmark) : Prop :=
  sqrt ((tip.x - wrist.x) ^ 2 + (tip.y - wrist.y) ^ 2) >
    sqrt ((mcp.x - wrist.x) ^ 2 + (mcp.y - wrist.y) ^ 2) * 1.5

/-- `onResults` from `HandTracker.tsx`: `none` models the no-hand callback
(`onHandUpdate(null)`), `some` the delivered `HandData`.  Landmarks 0 / 9 /
12 are the wrist, middle-finger MCP and middle-finger tip. -/
def onResults (results : Option Landmarks) : Option HandData :=
  match results with
  | none => none
  | some landmarks =>
    let wrist := landmarks 0
    let middleFingerMCP := landmarks 9
    let middleFingerTip := landmarks 12
    let dWristToMiddleTip :=
      sqrt ((middleFingerTip.x - wrist.x) ^ 2 + (middleFingerTip.y - wrist.y) ^ 2)
    let dWristToMiddleMCP :=
      sqrt ((middleFingerMCP.x - wrist.x) ^ 2 + (middleFingerMCP.y - wrist.y) ^ 2)
    let gesture :=
      if dWristToMiddleTip > dWristToMiddleMCP * 1.8 then Gesture.OPEN else Gesture.FIST
    let x := (1 - wrist.x) * 2 - 1
    let y := -(wrist.y * 2 - 1)
    let position : Vec3 := ⟨x, y, 0⟩
    let vDirection :=
      Vec3.normalize
        ⟨(1 - middleFingerMCP.x) - (1 - wrist.x), -(middleFingerMCP.y - wrist.y), 0⟩
    let dummyUp : Vec3 := ⟨0, 1, 0⟩
    let quaternion := setFromUnitVectors dummyUp vDirection
    some ⟨position, quaternion, gesture⟩

/-! ## Pose stabilizer (`Scene3D.tsx`, `CreateRig`'s `useFrame`) -/

/-- The mutable state owned by `CreateRig`: the two smoothing refs plus the
shield group's transform and visibility flag. -/
structure RigState where
  smoothedPosition : Vec3
  smoothedRotation : Quat
  groupPosition : Vec3
  groupQuaternion : Quat
  groupVisible : Bool

/-- One `useFrame` tick of `CreateRig`.  `viewportW`/`viewportH` are
`viewport.width`/`viewport.height` from `useThree`.  When the latest
observation is absent or its gesture is not `OPEN` the body's else-branch is
empty: the state is returned unchanged. -/
def createRigFrame (handData : Option HandData) (viewportW viewportH : ℝ)
    (s : RigState) : RigState :=
  match handData with
  | some h =>
    if h.gesture = Gesture.OPEN then
      let targetPos : Vec3 :=
        ⟨h.position.x * (viewportW / 2), h.position.y * (viewportH / 2), 0⟩
      let sp := s.smoothedPosition.lerp targetPos 0.1
      let sr := s.smoothedRotation.slerp h.rotation 0.1
      { smoothedPosition := sp, smoothedRotation := sr,
        groupPosition := sp, groupQuaternion := sr, groupVisible := true }
    else s
  | none => s

/-! ## Shield activation animation (`src/unnamed/part_000`, `Shield`'s
`useFrame`) -/

/-- The mutable state touched by `Shield`'s `useFrame`: the group scale
(the activation scalar is its `x` component), the group's render-visibility
flag, and the per-layer spin rotations. -/
structure ShieldState where
  scale : Vec3
  groupVisible : Bool
  innerRotZ : ℝ
  middleRotZ : ℝ
  outerRotZ : ℝ
  outerRotX : ℝ

/-- One `useFrame` tick of `Shield`.  `visibleProp` is the `visible` prop
(`targetActive`), `delta` the frame time, `elapsedTime` the clock.  The
scale lerp runs first; then, if the lerped scale is below `0.01` while the
prop is false, the group is hidden and the tick returns early, skipping the
rotation animation. -/
def shieldFrame (visibleProp : Bool) (delta elapsedTime : ℝ)
    (s : ShieldState) : ShieldState :=
  let targetScale : ℝ := if visibleProp then 1 else 0
  let scale' := s.scale.lerp ⟨targetScale, targetScale, targetScale⟩ 0.1
  if scale'.x < 0.01 ∧ visibleProp = false then
    { s with scale := scale', groupVisible := false }
  else
    { scale := scale', groupVisible := true,
      innerRotZ := s.innerRotZ - delta * 0.5,
      middleRotZ := s.middleRotZ + delta * 0.3,
      outerRotZ := s.outerRotZ - delta * 0.1,
      outerRotX := Real.sin elapsedTime * 0.1 }

/-- The `visible` prop handed to `Shield` in `Scene3D.tsx`:
`!!(handDataRef.current && handDataRef.current.gesture === 'OPEN')`. -/
def shieldVisibleProp (handData : Option HandData) : Bool :=
  match handData with
  | some h => h.gesture = Gesture.OPEN
  | none => false

/-! ## IEEE NaN-propagation model

The interpreter performs no finiteness check, so to settle how it behaves on
NaN landmark input we re-embed the same source over `FP := Option ℝ`, where
`none` models NaN and `some x` a finite value.  Arithmetic propagates NaN;
every ordering or strict-equality comparison involving NaN is false, and
JavaScript truthiness treats NaN like 0 (`NaN || 1` is `1`).  (Division by
zero, which yields an infinity in JavaScript, is also mapped to `none`; no
embedded code path divides by zero.) -/

/-- A JavaScript number that may be NaN: `none` is NaN. -/
def FP := Option ℝ

/-- NaN-propagating addition. -/
def FP.add : FP → FP → FP
  | some x, some y => some (x + y)
  | _, _ => none

/-- NaN-propagating subtraction. -/
def FP.sub : FP → FP → FP
  | some x, some y => some (x - y)
  | _, _ => none

/-- NaN-propagating multiplication. -/
def FP.mul : FP → FP → FP
  | some x, some y => some (x * y)
  | _, _ => none

/-- NaN-propagating division (division by zero also mapped to `none`). -/
def FP.div : FP → FP → FP
  | some x, some y => if y = 0 then none else some (x / y)
  | _, _ => none

/-- NaN-propagating negation. -/
def FP.neg : FP → FP
  | some x => some (-x)
  | none => none

/-- `Math.pow(a, 2)`. -/
def FP.sq : FP → FP
  | some x => some (x ^ 2)
  | none => none

/-- `Math.sqrt`: NaN on NaN or negative input. -/
def FP.sqrtFP : FP → FP
  | some x => if x < 0 then none else some (sqrt x)
  | none => none

/-- `Math.abs`. -/
def FP.absFP : FP → FP
  | some x => some |x|
  | none => none

/-- JavaScript `a < b`: false whenever either side is NaN. -/
def FP.ltB : FP → FP → Bool
  | some x, some y => decide (x < y)
  | _, _ => false

/-- JavaScript `a > b`: false whenever either side is NaN. -/
def FP.gtB (a b : FP) : Bool := FP.ltB b a

/-- JavaScript `a === b`: false whenever either side is NaN. -/
def FP.eqB : FP → FP → Bool
  | some x, some y => decide (x = y)
  | _, _ => false

/-- JavaScript truthiness fallback `l || 1`: NaN and 0 are falsy. -/
def FP.truthyOr1 : FP → ℝ
  | none => 1
  | some v => if v = 0 then 1 else v

/-- `THREE.Vector3` over possibly-NaN numbers. -/
structure Vec3FP where
  x : FP
  y : FP
  z : FP

/-- `THREE.Quaternion` over possibly-NaN numbers. -/
structure QuatFP where
  x : FP
  y : FP
  z : FP
  w : FP

/-- `Vector3.length()` over `FP`. -/
def Vec3FP.lengthFP (v : Vec3FP) : FP :=
  FP.sqrtFP (FP.add (FP.add (FP.mul v.x v.x) (FP.mul v.y v.y)) (FP.mul v.z v.z))

/-- `Vector3.normalize()` over `FP`: `divideScalar(this.length() || 1)`,
i.e. `multiplyScalar(1 / (length || 1))`. -/
def Vec3FP.normalizeFP (v : Vec3FP) : Vec3FP :=
  let d := FP.truthyOr1 v.lengthFP
  ⟨FP.mul v.x (some (1 / d)), FP.mul v.y (some (1 / d)), FP.mul v.z (some (1 / d))⟩

/-- `Quaternion.length()` over `FP`. -/
def QuatFP.lengthFP (q : QuatFP) : FP :=
  FP.sqrtFP (FP.add (FP.add (FP.add (FP.mul q.x q.x) (FP.mul q.y q.y))
    (FP.mul q.z q.z)) (FP.mul q.w q.w))

/-- `Quaternion.normalize()` over `FP`: the `l === 0` test is false for a
NaN length, so NaN components survive the multiply by `1 / l`. -/
def QuatFP.normalizeFP (q : QuatFP) : QuatFP :=
  let l := q.lengthFP
  if FP.eqB l (some 0) then ⟨some 0, some 0, some 0, some 1⟩
  else
    let li := FP.div (some 1) l
    ⟨FP.mul q.x li, FP.mul q.y li, FP.mul q.z li, FP.mul q.w li⟩

/-- `Quaternion.setFromUnitVectors` over `FP`: the `r < Number.EPSILON`
test is false for a NaN `r`, so the general branch runs. -/
def setFromUnitVectorsFP (vFrom vTo : Vec3FP) : QuatFP :=
  let r := FP.add (FP.add (FP.add (FP.mul vFrom.x vTo.x) (FP.mul vFrom.y vTo.y))
    (FP.mul vFrom.z vTo.z)) (some 1)
  if FP.ltB r (some numberEPSILON) then
    (if FP.gtB (FP.absFP vFrom.x) (FP.absFP vFrom.z) then
      QuatFP.normalizeFP ⟨FP.neg vFrom.y, vFrom.x, some 0, some 0⟩
    else
      QuatFP.normalizeFP ⟨some 0, FP.neg vFrom.z, vFrom.y, some 0⟩)
  else
    QuatFP.normalizeFP
      ⟨FP.sub (FP.mul vFrom.y vTo.z) (FP.mul vFrom.z vTo.y),
       FP.sub (FP.mul vFrom.z vTo.x) (FP.mul vFrom.x vTo.z),
       FP.sub (FP.mul vFrom.x vTo.y) (FP.mul vFrom.y vTo.x),
       r⟩

/-- A landmark whose coordinates may be NaN. -/
structure LandmarkFP where
  x : FP
  y : FP
  z : FP

/-- `HandData` over possibly-NaN numbers. -/
structure HandDataFP where
  position : Vec3FP
  rotation : QuatFP
  gesture : Gesture

/-- `onResults` re-embedded over `FP`: identical control flow to
`onResults`, executing the source's arithmetic under NaN propagation. -/
def onResultsFP (results : Option (Fin 21 → LandmarkFP)) : Option HandDataFP :=
  match results with
  | none => none
  | some landmarks =>
    let wrist := landmarks 0
    let middleFingerMCP := landmarks 9
    let middleFingerTip := landmarks 12
    let dWristToMiddleTip :=
      FP.sqrtFP (FP.add (FP.sq (FP.sub middleFingerTip.x wrist.x))
        (FP.sq (FP.sub middleFingerTip.y wrist.y)))
    let dWristToMiddleMCP :=
      FP.sqrtFP (FP.add (FP.sq (FP.sub middleFingerMCP.x wrist.x))
        (FP.sq (FP.sub middleFingerMCP.y wrist.y)))
    let gesture :=
      if FP.gtB dWristToMiddleTip (FP.mul dWristToMiddleMCP (some 1.8))
      then Gesture.OPEN else Gesture.FIST
    let x := FP.sub (FP.mul (FP.sub (some 1) wrist.x) (some 2)) (some 1)
    let y := FP.neg (FP.sub (FP.mul wrist.y (some 2)) (some 1))
    let position : Vec3FP := ⟨x, y, some 0⟩
    let vDirection :=
      Vec3FP.normalizeFP
        ⟨FP.sub (FP.sub (some 1) middleFingerMCP.x) (FP.sub (some 1) wrist.x),
         FP.neg (FP.sub middleFingerMCP.y wrist.y), some 0⟩
    let dummyUp : Vec3FP := ⟨some 0, some 1, some 0⟩
    let quaternion := setFromUnitVectorsFP dummyUp vDirection
    some ⟨position, quaternion, gesture⟩

/-! ## Basic evaluation lemmas -/

lemma sqrt_eval {a b : ℝ} (hb : 0 ≤ b) (h : b ^ 2 = a) : sqrt a = b := by
  rw [← h, Real.sqrt_sq hb]

lemma numberEPSILON_pos : 0 < numberEPSILON := by
  unfold numberEPSILON; positivity

lemma numberEPSILON_lt_one : numberEPSILON < 1 := by
  unfold numberEPSILON
  rw [inv_lt_one₀ (by positivity)]
  norm_num

/-- Planar Euclidean distance in the x/y plane between two landmarks — the
quantity `onResults` computes inline for the wrist-to-tip and wrist-to-MCP
distances. -/
def planarDistance (a b : Landmark) : ℝ := sqrt ((a.x - b.x) ^ 2 + (a.y - b.y) ^ 2)

/-- Normal form of `onResults` on a present hand. -/
lemma onResults_some (lm : Landmarks) :
    onResults (some lm) =
      some ⟨⟨(1 - (lm 0).x) * 2 - 1, -((lm 0).y * 2 - 1), 0⟩,
        setFromUnitVectors ⟨0, 1, 0⟩
          (Vec3.normalize ⟨(1 - (lm 9).x) - (1 - (lm 0).x), -((lm 9).y - (lm 0).y), 0⟩),
        if planarDistance (lm 12) (lm 0) > planarDistance (lm 9) (lm 0) * 1.8
        then Gesture.OPEN else Gesture.FIST⟩ := rfl

lemma setFromUnitVectors_up_up : setFromUnitVectors ⟨0, 1, 0⟩ ⟨0, 1, 0⟩ = ⟨0, 0, 0, 1⟩ := by
  unfold setFromUnitVectors
  rw [if_neg (by simp; nlinarith [numberEPSILON_lt_one])]
  unfold Quat.normalize Quat.length
  simp only
  norm_num
  rw [sqrt_eval (le_of_lt two_pos) (by norm_num)]
  norm_num

lemma setFromUnitVectors_up_zero : setFromUnitVectors ⟨0, 1, 0⟩ ⟨0, 0, 0⟩ = ⟨0, 0, 0, 1⟩ := by
  unfold setFromUnitVectors
  rw [if_neg (by simp; nlinarith [numberEPSILON_lt_one])]
  unfold Quat.normalize Quat.length
  simp only
  norm_num

/-! ## C1: gesture threshold -/

/-- C1: for every landmark set, the interpreter classifies `OPEN` exactly
when the planar tip-to-wrist distance strictly exceeds `1.8` times the
planar MCP-to-wrist distance, and `FIST` otherwise; on the boundary
`dTip = 1.8 * dBase` it classifies `FIST`. -/
theorem c1_gesture_threshold (lm : Landmarks) (h : HandData)
    (hres : onResults (some lm) = some h) :
    (h.gesture = Gesture.OPEN ↔
      planarDistance (lm 12) (lm 0) > planarDistance (lm 9) (lm 0) * 1.8) ∧
    (planarDistance (lm 12) (lm 0) = planarDistance (lm 9) (lm 0) * 1.8 →
      h.gesture = Gesture.FIST) := by
  rw [onResults_some] at hres
  injection hres with hres
  subst hres
  constructor
  · by_cases hc : planarDistance (lm 12) (lm 0) > planarDistance (lm 9) (lm 0) * 1.8
    · simp [hc]
    · simp [hc]
  · intro heq
    have hlt : ¬ planarDistance (lm 12) (lm 0) > planarDistance (lm 9) (lm 0) * 1.8 := by
      rw [heq]; exact lt_irrefl _
    simp [hlt]

/-- The spec's §8 end-to-end "open hand" landmark frame: wrist `(0.5, 0.5)`,
middle MCP `(0.5, 0.3)`, middle tip `(0.5, 0.05)`. -/
def lmOpen : Landmarks := fun i =>
  if i = 9 then ⟨1 / 2, 3 / 10, 0⟩
  else if i = 12 then ⟨1 / 2, 1 / 20, 0⟩
  else ⟨1 / 2, 1 / 2, 0⟩

lemma lmOpen_0 : lmOpen 0 = ⟨1 / 2, 1 / 2, 0⟩ := rfl

lemma lmOpen_9 : lmOpen 9 = ⟨1 / 2, 3 / 10, 0⟩ := rfl

lemma lmOpen_12 : lmOpen 12 = ⟨1 / 2, 1 / 20, 0⟩ := rfl

lemma planarDistance_lmOpen_tip : planarDistance (lmOpen 12) (lmOpen 0) = 9 / 20 := by
  rw [lmOpen_12, lmOpen_0]
  unfold planarDistance
  exact sqrt_eval (show (0 : ℝ) ≤ 9 / 20 by norm_num) (by norm_num)

lemma planarDistance_lmOpen_mcp : planarDistance (lmOpen 9) (lmOpen 0) = 1 / 5 := by
  rw [lmOpen_9, lmOpen_0]
  unfold planarDistance
  exact sqrt_eval (show (0 : ℝ) ≤ 1 / 5 by norm_num) (by norm_num)

lemma onResults_lmOpen :
    onResults (some lmOpen) = some ⟨⟨0, 0, 0⟩, ⟨0, 0, 0, 1⟩, Gesture.OPEN⟩ := by
  rw [onResults_some, planarDistance_lmOpen_tip, planarDistance_lmOpen_mcp]
  rw [lmOpen_0, lmOpen_9]
  have hdir : Vec3.normalize ⟨0, (1:ℝ)/5, 0⟩ = ⟨0, 1, 0⟩ := by
    unfold Vec3.normalize Vec3.length
    rw [sqrt_eval (show (0:ℝ) ≤ 1/5 by norm_num) (by norm_num)]
    norm_num
  simp only
  rw [if_pos (by norm_num)]
  norm_num
  rw [hdir, setFromUnitVectors_up_up]

/-- Witness for C1 at the spec's §8 open-hand frame. -/
theorem c1_gesture_threshold_witness :
    (Gesture.OPEN = Gesture.OPEN ↔
      planarDistance (lmOpen 12) (lmOpen 0) > planarDistance (lmOpen 9) (lmOpen 0) * 1.8) ∧
    (planarDistance (lmOpen 12) (lmOpen 0) = planarDistance (lmOpen 9) (lmOpen 0) * 1.8 →
      Gesture.OPEN = Gesture.FIST) :=
  c1_gesture_threshold lmOpen ⟨⟨0, 0, 0⟩, ⟨0, 0, 0, 1⟩, Gesture.OPEN⟩ onResults_lmOpen

/-! ## C5: position mapping -/

/-- C5: for every wrist landmark with coordinates in `[0,1]²`, the output
position is `((1 - W.x) * 2 - 1, -(W.y * 2 - 1), 0)`; in particular
`W.x = 0 ↦ 1`, `W.x = 1 ↦ -1`, `W.x = 0.5 ↦ 0`, and `z` is always `0`. -/
theorem c5_position_mapping (lm : Landmarks) (h : HandData)
    (hb : 0 ≤ (lm 0).x ∧ (lm 0).x ≤ 1 ∧ 0 ≤ (lm 0).y ∧ (lm 0).y ≤ 1)
    (hres : onResults (some lm) = some h) :
    h.position = ⟨(1 - (lm 0).x) * 2 - 1, -((lm 0).y * 2 - 1), 0⟩ ∧
    ((lm 0).x = 0 → h.position.x = 1) ∧
    ((lm 0).x = 1 → h.position.x = -1) ∧
    ((lm 0).x = 1 / 2 → h.position.x = 0) ∧
    h.position.z = 0 := by
  rw [onResults_some] at hres
  injection hres with hres
  subst hres
  refine ⟨rfl, ?_, ?_, ?_, rfl⟩ <;> intro hx <;> simp only [hx] <;> norm_num

/-- Witness for C5 at the §8 open-hand frame (wrist at `(0.5, 0.5)`). -/
theorem c5_position_mapping_witness :
    (0 ≤ (lmOpen 0).x ∧ (lmOpen 0).x ≤ 1 ∧ 0 ≤ (lmOpen 0).y ∧ (lmOpen 0).y ≤ 1) ∧
    ((⟨⟨0, 0, 0⟩, ⟨0, 0, 0, 1⟩, Gesture.OPEN⟩ : HandData).position =
        ⟨(1 - (lmOpen 0).x) * 2 - 1, -((lmOpen 0).y * 2 - 1), 0⟩ ∧
      ((lmOpen 0).x = 0 → (⟨⟨0, 0, 0⟩, ⟨0, 0, 0, 1⟩, Gesture.OPEN⟩ : HandData).position.x = 1) ∧
      ((lmOpen 0).x = 1 → (⟨⟨0, 0, 0⟩, ⟨0, 0, 0, 1⟩, Gesture.OPEN⟩ : HandData).position.x = -1) ∧
      ((lmOpen 0).x = 1 / 2 →
        (⟨⟨0, 0, 0⟩, ⟨0, 0, 0, 1⟩, Gesture.OPEN⟩ : HandData).position.x = 0) ∧
      (⟨⟨0, 0, 0⟩, ⟨0, 0, 0, 1⟩, Gesture.OPEN⟩ : HandData).position.z = 0) :=
  ⟨by rw [lmOpen_0]; norm_num,
   c5_position_mapping lmOpen _ (by rw [lmOpen_0]; norm_num) onResults_lmOpen⟩

/-! ## C9: the classifier never surfaces UNKNOWN -/

/-- C9: the no-hand case is delivered as an absent observation, and every
delivered observation's gesture is `OPEN` or `FIST` — never `UNKNOWN`,
although the `HandData` type admits it. -/
theorem c9_gesture_never_unknown :
    onResults none = none ∧
    ∀ (lm : Landmarks) (h : HandData), onResults (some lm) = some h →
      (h.gesture = Gesture.OPEN ∨ h.gesture = Gesture.FIST) ∧
        h.gesture ≠ Gesture.UNKNOWN := by
  refine ⟨rfl, ?_⟩
  intro lm h hres
  rw [onResults_some] at hres
  injection hres with hres
  subst hres
  by_cases hc : planarDistance (lm 12) (lm 0) > planarDistance (lm 9) (lm 0) * 1.8 <;>
    simp [hc]

/-- Witness for C9 at the §8 open-hand frame. -/
theorem c9_gesture_never_unknown_witness :
    ((⟨⟨0, 0, 0⟩, ⟨0, 0, 0, 1⟩, Gesture.OPEN⟩ : HandData).gesture = Gesture.OPEN ∨
      (⟨⟨0, 0, 0⟩, ⟨0, 0, 0, 1⟩, Gesture.OPEN⟩ : HandData).gesture = Gesture.FIST) ∧
    (⟨⟨0, 0, 0⟩, ⟨0, 0, 0, 1⟩, Gesture.OPEN⟩ : HandData).gesture ≠ Gesture.UNKNOWN :=
  c9_gesture_never_unknown.2 lmOpen _ onResults_lmOpen

/-! ## C4: orientation is unit-length; degenerate direction falls back to
the identity -/

lemma Quat.length_normalize (q : Quat) (h : q.length ≠ 0) :
    (Quat.normalize q).length = 1 := by
  have hsum : 0 ≤ q.x ^ 2 + q.y ^ 2 + q.z ^ 2 + q.w ^ 2 := by positivity
  have hl2 : q.length ^ 2 = q.x ^ 2 + q.y ^ 2 + q.z ^ 2 + q.w ^ 2 := Real.sq_sqrt hsum
  have key : (q.x * (1 / q.length)) ^ 2 + (q.y * (1 / q.length)) ^ 2 +
      (q.z * (1 / q.length)) ^ 2 + (q.w * (1 / q.length)) ^ 2 = 1 := by
    have expand : (q.x * (1 / q.length)) ^ 2 + (q.y * (1 / q.length)) ^ 2 +
        (q.z * (1 / q.length)) ^ 2 + (q.w * (1 / q.length)) ^ 2 =
        (q.x ^ 2 + q.y ^ 2 + q.z ^ 2 + q.w ^ 2) * (1 / q.length) ^ 2 := by ring
    rw [expand, ← hl2]
    field_simp
  unfold Quat.normalize
  rw [if_neg h]
  show sqrt ((q.x * (1 / q.length)) ^ 2 + (q.y * (1 / q.length)) ^ 2 +
    (q.z * (1 / q.length)) ^ 2 + (q.w * (1 / q.length)) ^ 2) = 1
  rw [key, Real.sqrt_one]

/-- The orientation produced for any planar direction input has length
exactly 1 (covering the zero-direction fallback). -/
lemma setFromUnitVectors_up_planar_length (dx dy : ℝ) :
    (setFromUnitVectors ⟨0, 1, 0⟩ (Vec3.normalize ⟨dx, dy, 0⟩)).length = 1 := by
  by_cases hL : Vec3.length ⟨dx, dy, 0⟩ = 0
  · have hle : dx ^ 2 + dy ^ 2 + (0 : ℝ) ^ 2 ≤ 0 := by
      unfold Vec3.length at hL
      exact Real.sqrt_eq_zero'.mp hL
    have h1 : dx = 0 := by nlinarith [sq_nonneg dx, sq_nonneg dy]
    have h2 : dy = 0 := by nlinarith [sq_nonneg dx, sq_nonneg dy]
    subst h1; subst h2
    have hnz : Vec3.normalize ⟨(0:ℝ), (0:ℝ), 0⟩ = ⟨0, 0, 0⟩ := by
      unfold Vec3.normalize
      rw [if_pos hL]
    rw [hnz, setFromUnitVectors_up_zero]
    unfold Quat.length
    norm_num
  · have hLpos : 0 < Vec3.length ⟨dx, dy, 0⟩ :=
      lt_of_le_of_ne (Real.sqrt_nonneg _) (Ne.symm hL)
    have hnorm : Vec3.normalize ⟨dx, dy, 0⟩ =
        ⟨dx / Vec3.length ⟨dx, dy, 0⟩, dy / Vec3.length ⟨dx, dy, 0⟩, 0⟩ := by
      unfold Vec3.normalize
      rw [if_neg hL]
      simp
    rw [hnorm]
    unfold setFromUnitVectors
    set L := Vec3.length ⟨dx, dy, 0⟩ with hLdef
    by_cases hr : (0 : ℝ) * (dx / L) + 1 * (dy / L) + 0 * 0 + 1 < numberEPSILON
    · rw [if_pos hr]
      rw [if_neg (by norm_num)]
      have hlen : Quat.length ⟨0, -(0:ℝ), (1:ℝ), 0⟩ = 1 := by
        unfold Quat.length
        norm_num
      exact Quat.length_normalize _ (by rw [hlen]; norm_num)
    · rw [if_neg hr]
      apply Quat.length_normalize
      have hrge : numberEPSILON ≤ 0 * (dx / L) + 1 * (dy / L) + 0 * 0 + 1 := not_lt.mp hr
      have hrpos : 0 < 0 * (dx / L) + 1 * (dy / L) + 0 * 0 + 1 :=
        lt_of_lt_of_le numberEPSILON_pos hrge
      unfold Quat.length
      intro hzero
      have hsum0 : ((1:ℝ) * 0 - 0 * (dy / L)) ^ 2 + (0 * (dx / L) - 0 * 0) ^ 2 +
          (0 * (dy / L) - 1 * (dx / L)) ^ 2 +
          (0 * (dx / L) + 1 * (dy / L) + 0 * 0 + 1) ^ 2 ≤ 0 :=
        Real.sqrt_eq_zero'.mp hzero
      nlinarith [sq_nonneg (dx / L), sq_nonneg (0 * (dy / L) - 1 * (dx / L))]

/-- C4: every delivered observation's orientation quaternion has norm
within `1e-6` of 1 (in this real-valued model it is exactly 1, and no
component can be NaN); when wrist and middle knuckle coincide in the x/y
plane the direction vector is zero-length and the orientation equals the
canonical-up self-alignment quaternion, which is the identity. -/
theorem c4_orientation_unit (lm : Landmarks) (h : HandData)
    (hres : onResults (some lm) = some h) :
    |Quat.length h.rotation - 1| ≤ 1e-6 ∧
    ((lm 9).x = (lm 0).x ∧ (lm 9).y = (lm 0).y →
      h.rotation = setFromUnitVectors ⟨0, 1, 0⟩ ⟨0, 1, 0⟩ ∧
        h.rotation = ⟨0, 0, 0, 1⟩) := by
  rw [onResults_some] at hres
  injection hres with hres
  subst hres
  constructor
  · have hlen := setFromUnitVectors_up_planar_length
      ((1 - (lm 9).x) - (1 - (lm 0).x)) (-((lm 9).y - (lm 0).y))
    simp only
    rw [hlen]
    norm_num
  · rintro ⟨hx9, hy9⟩
    simp only
    rw [show (1 - (lm 9).x) - (1 - (lm 0).x) = 0 by rw [hx9]; ring,
        show -((lm 9).y - (lm 0).y) = 0 by rw [hy9]; ring]
    have hnz : Vec3.normalize ⟨(0 : ℝ), (0 : ℝ), 0⟩ = ⟨0, 0, 0⟩ := by
      unfold Vec3.normalize
      rw [if_pos]
      unfold Vec3.length
      norm_num
    rw [hnz, setFromUnitVectors_up_zero, setFromUnitVectors_up_up]
    exact ⟨rfl, rfl⟩

/-- A fully degenerate frame: every landmark at `(0.5, 0.5)`. -/
def lmFist : Landmarks := fun _ => ⟨1 / 2, 1 / 2, 0⟩

lemma onResults_lmFist :
    onResults (some lmFist) = some ⟨⟨0, 0, 0⟩, ⟨0, 0, 0, 1⟩, Gesture.FIST⟩ := by
  rw [onResults_some]
  have hpd : planarDistance (lmFist 12) (lmFist 0) = 0 := by
    unfold planarDistance lmFist
    norm_num
  have hpd9 : planarDistance (lmFist 9) (lmFist 0) = 0 := by
    unfold planarDistance lmFist
    norm_num
  rw [hpd, hpd9, if_neg (by norm_num)]
  unfold lmFist
  have hnz : Vec3.normalize ⟨(1 : ℝ) - 1 / 2 - (1 - 1 / 2), -((1 : ℝ) / 2 - 1 / 2), 0⟩ =
      ⟨0, 0, 0⟩ := by
    unfold Vec3.normalize
    rw [if_pos]
    · norm_num
    · unfold Vec3.length
      norm_num
  rw [hnz, setFromUnitVectors_up_zero]
  norm_num

/-- Witness for C4 at the fully degenerate frame. -/
theorem c4_orientation_unit_witness :
    |Quat.length (⟨⟨0, 0, 0⟩, ⟨0, 0, 0, 1⟩, Gesture.FIST⟩ : HandData).rotation - 1| ≤ 1e-6 ∧
    ((⟨⟨0, 0, 0⟩, ⟨0, 0, 0, 1⟩, Gesture.FIST⟩ : HandData).rotation =
        setFromUnitVectors ⟨0, 1, 0⟩ ⟨0, 1, 0⟩ ∧
      (⟨⟨0, 0, 0⟩, ⟨0, 0, 0, 1⟩, Gesture.FIST⟩ : HandData).rotation = ⟨0, 0, 0, 1⟩) :=
  ⟨(c4_orientation_unit lmFist _ onResults_lmFist).1,
   (c4_orientation_unit lmFist _ onResults_lmFist).2 ⟨rfl, rfl⟩⟩

/-! ## C6: the OPEN-tick update -/

/-- The §8 open-hand observation: centered position, identity orientation. -/
def hdOpenId : HandData := ⟨⟨0, 0, 0⟩, ⟨0, 0, 0, 1⟩, Gesture.OPEN⟩

/-- The rig's startup state: origin position, identity orientation. -/
def rigInit : RigState := ⟨⟨0, 0, 0⟩, ⟨0, 0, 0, 1⟩, ⟨0, 0, 0⟩, ⟨0, 0, 0, 1⟩, false⟩

/-- Normal form of `createRigFrame` on a present observation. -/
lemma createRigFrame_some (h : HandData) (vw vh : ℝ) (s : RigState) :
    createRigFrame (some h) vw vh s =
      if h.gesture = Gesture.OPEN then
        { smoothedPosition :=
            s.smoothedPosition.lerp ⟨h.position.x * (vw / 2), h.position.y * (vh / 2), 0⟩ 0.1,
          smoothedRotation := s.smoothedRotation.slerp h.rotation 0.1,
          groupPosition :=
            s.smoothedPosition.lerp ⟨h.position.x * (vw / 2), h.position.y * (vh / 2), 0⟩ 0.1,
          groupQuaternion := s.smoothedRotation.slerp h.rotation 0.1,
          groupVisible := true }
      else s := rfl

/-- C6: on a tick whose observation is present with gesture `OPEN`, the rig
computes the world target `(ndcX * viewport.width/2, ndcY * viewport.height/2, 0)`,
lerps the smoothed position toward it with factor 0.1
(`pos ← pos + 0.1·(target − pos)` componentwise), and slerps the smoothed
orientation toward the observation's orientation with factor 0.1. -/
theorem c6_open_tick_updates (obs : Option HandData) (h : HandData)
    (vw vh : ℝ) (s : RigState)
    (hobs : obs = some h) (hg : h.gesture = Gesture.OPEN) :
    (createRigFrame obs vw vh s).smoothedPosition =
      ⟨s.smoothedPosition.x + 0.1 * (h.position.x * (vw / 2) - s.smoothedPosition.x),
       s.smoothedPosition.y + 0.1 * (h.position.y * (vh / 2) - s.smoothedPosition.y),
       s.smoothedPosition.z + 0.1 * (0 - s.smoothedPosition.z)⟩ ∧
    (createRigFrame obs vw vh s).smoothedRotation =
      s.smoothedRotation.slerp h.rotation 0.1 := by
  subst hobs
  rw [createRigFrame_some, if_pos hg]
  refine ⟨?_, rfl⟩
  simp only [Vec3.lerp, Vec3.mk.injEq]
  refine ⟨by ring, by ring, by ring⟩

/-- Witness for C6 at the centered observation and the startup rig state. -/
theorem c6_open_tick_updates_witness :
    (createRigFrame (some hdOpenId) 10 (76 / 10) rigInit).smoothedPosition =
      ⟨rigInit.smoothedPosition.x +
         0.1 * (hdOpenId.position.x * (10 / 2) - rigInit.smoothedPosition.x),
       rigInit.smoothedPosition.y +
         0.1 * (hdOpenId.position.y * ((76 / 10) / 2) - rigInit.smoothedPosition.y),
       rigInit.smoothedPosition.z + 0.1 * (0 - rigInit.smoothedPosition.z)⟩ ∧
    (createRigFrame (some hdOpenId) 10 (76 / 10) rigInit).smoothedRotation =
      rigInit.smoothedRotation.slerp hdOpenId.rotation 0.1 :=
  c6_open_tick_updates (some hdOpenId) hdOpenId 10 (76 / 10) rigInit rfl rfl

/-! ## C10: absent / FIST ticks hold the pose -/

/-- C10: on a tick whose observation is absent or a `FIST`, the rig leaves
the smoothed position, smoothed orientation and the shield group's transform
exactly unchanged; the shield `visible` prop is false and only the
activation scale is lerped (toward zero). -/
theorem c10_inactive_tick_holds_pose (obs : Option HandData)
    (vw vh delta elapsed : ℝ) (s : RigState) (st : ShieldState)
    (hobs : obs = none ∨ ∃ h, obs = some h ∧ h.gesture = Gesture.FIST) :
    (createRigFrame obs vw vh s).smoothedPosition = s.smoothedPosition ∧
    (createRigFrame obs vw vh s).smoothedRotation = s.smoothedRotation ∧
    (createRigFrame obs vw vh s).groupPosition = s.groupPosition ∧
    (createRigFrame obs vw vh s).groupQuaternion = s.groupQuaternion ∧
    shieldVisibleProp obs = false ∧
    (shieldFrame (shieldVisibleProp obs) delta elapsed st).scale =
      st.scale.lerp ⟨0, 0, 0⟩ 0.1 := by
  have hrig : createRigFrame obs vw vh s = s := by
    rcases hobs with rfl | ⟨h, rfl, hg⟩
    · rfl
    · rw [createRigFrame_some,
        if_neg (by rw [hg]; exact fun hcon => Gesture.noConfusion hcon)]
  have hvis : shieldVisibleProp obs = false := by
    rcases hobs with rfl | ⟨h, rfl, hg⟩
    · rfl
    · unfold shieldVisibleProp
      simp [hg]
  refine ⟨by rw [hrig], by rw [hrig], by rw [hrig], by rw [hrig], hvis, ?_⟩
  rw [hvis]
  unfold shieldFrame
  norm_num
  split_ifs <;> rfl

/-- Witness for C10 at a concrete FIST observation. -/
theorem c10_inactive_tick_holds_pose_witness :
    (createRigFrame (some ⟨⟨0, 0, 0⟩, ⟨0, 0, 0, 1⟩, Gesture.FIST⟩) 10 (76 / 10)
        rigInit).smoothedPosition = rigInit.smoothedPosition ∧
    (createRigFrame (some ⟨⟨0, 0, 0⟩, ⟨0, 0, 0, 1⟩, Gesture.FIST⟩) 10 (76 / 10)
        rigInit).smoothedRotation = rigInit.smoothedRotation ∧
    (createRigFrame (some ⟨⟨0, 0, 0⟩, ⟨0, 0, 0, 1⟩, Gesture.FIST⟩) 10 (76 / 10)
        rigInit).groupPosition = rigInit.groupPosition ∧
    (createRigFrame (some ⟨⟨0, 0, 0⟩, ⟨0, 0, 0, 1⟩, Gesture.FIST⟩) 10 (76 / 10)
        rigInit).groupQuaternion = rigInit.groupQuaternion ∧
    shieldVisibleProp (some ⟨⟨0, 0, 0⟩, ⟨0, 0, 0, 1⟩, Gesture.FIST⟩) = false ∧
    (shieldFrame (shieldVisibleProp (some ⟨⟨0, 0, 0⟩, ⟨0, 0, 0, 1⟩, Gesture.FIST⟩))
        (1 / 60) 0 ⟨⟨1, 1, 1⟩, true, 0, 0, 0, 0⟩).scale =
      Vec3.lerp ⟨1, 1, 1⟩ ⟨0, 0, 0⟩ 0.1 :=
  c10_inactive_tick_holds_pose (some ⟨⟨0, 0, 0⟩, ⟨0, 0, 0, 1⟩, Gesture.FIST⟩)
    10 (76 / 10) (1 / 60) 0 rigInit ⟨⟨1, 1, 1⟩, true, 0, 0, 0, 0⟩
    (Or.inr ⟨_, rfl, rfl⟩)

/-! ## C7: the deactivation cutoff -/

/-- A shield state with activation `0.005`, below the `0.01` cutoff. -/
def stHalfPercent : ShieldState := ⟨⟨1 / 200, 1 / 200, 1 / 200⟩, false, 0, 0, 0, 0⟩

/-- Counterexample to C7 as stated: on a tick with activation below `0.01`
and `targetActive` false, the code still lerps the activation (the scale
changes from `0.005` to `0.0045`) before marking the group invisible — the
activation smoothing is not skipped. -/
theorem c7_counterexample :
    stHalfPercent.scale.x < 0.01 ∧
    (shieldFrame false (1 / 60) 0 stHalfPercent).groupVisible = false ∧
    (shieldFrame false (1 / 60) 0 stHalfPercent).scale.x ≠ stHalfPercent.scale.x := by
  have hframe : shieldFrame false (1 / 60) 0 stHalfPercent =
      { stHalfPercent with scale := ⟨9 / 2000, 9 / 2000, 9 / 2000⟩, groupVisible := false } := by
    unfold shieldFrame stHalfPercent
    norm_num [Vec3.lerp]
  refine ⟨by norm_num [stHalfPercent], by rw [hframe], by rw [hframe]; norm_num [stHalfPercent]⟩

/-- C7 (amended): on every tick where the post-lerp activation is below
`0.01` and `targetActive` is false, the group is marked invisible and the
per-tick rotation animation is skipped; the activation lerp itself has
already run on that tick (and keeps running on later ticks), so the
activation is still smoothed toward zero rather than frozen. -/
theorem c7_cutoff_amended (visibleProp : Bool) (delta elapsed : ℝ)
    (s : ShieldState) (hv : visibleProp = false)
    (hcut : s.scale.x + (0 - s.scale.x) * 0.1 < 0.01) :
    (shieldFrame visibleProp delta elapsed s).groupVisible = false ∧
    (shieldFrame visibleProp delta elapsed s).innerRotZ = s.innerRotZ ∧
    (shieldFrame visibleProp delta elapsed s).middleRotZ = s.middleRotZ ∧
    (shieldFrame visibleProp delta elapsed s).outerRotZ = s.outerRotZ ∧
    (shieldFrame visibleProp delta elapsed s).outerRotX = s.outerRotX ∧
    (shieldFrame visibleProp delta elapsed s).scale.x =
      s.scale.x + (0 - s.scale.x) * 0.1 := by
  subst hv
  unfold shieldFrame
  norm_num [Vec3.lerp]
  rw [if_pos (show s.scale.x < 1 / 100 + s.scale.x * (1 / 10) by linarith)]
  exact ⟨rfl, rfl, rfl, rfl, rfl, by ring⟩

/-- Witness for the amended C7 at the `0.005`-activation state. -/
theorem c7_cutoff_amended_witness :
    ((false : Bool) = false ∧
      stHalfPercent.scale.x + (0 - stHalfPercent.scale.x) * 0.1 < 0.01) ∧
    ((shieldFrame false (1 / 60) 0 stHalfPercent).groupVisible = false ∧
      (shieldFrame false (1 / 60) 0 stHalfPercent).innerRotZ = stHalfPercent.innerRotZ ∧
      (shieldFrame false (1 / 60) 0 stHalfPercent).middleRotZ = stHalfPercent.middleRotZ ∧
      (shieldFrame false (1 / 60) 0 stHalfPercent).outerRotZ = stHalfPercent.outerRotZ ∧
      (shieldFrame false (1 / 60) 0 stHalfPercent).outerRotX = stHalfPercent.outerRotX ∧
      (shieldFrame false (1 / 60) 0 stHalfPercent).scale.x =
        stHalfPercent.scale.x + (0 - stHalfPercent.scale.x) * 0.1) :=
  ⟨⟨rfl, by norm_num [stHalfPercent]⟩,
   c7_cutoff_amended false (1 / 60) 0 stHalfPercent rfl (by norm_num [stHalfPercent])⟩

/-! ## C2: behaviour under an unbounded sequence of absent observations -/

lemma createRigFrame_none (vw vh : ℝ) (s : RigState) :
    createRigFrame none vw vh s = s := rfl

/-- A rig state whose smoothed position sits at distance 1 from the origin. -/
def rigOffOrigin : RigState := ⟨⟨1, 0, 0⟩, ⟨0, 0, 0, 1⟩, ⟨1, 0, 0⟩, ⟨0, 0, 0, 1⟩, false⟩

/-- Counterexample to C2 as stated: from a state whose smoothed position is
`(1,0,0)`, an unbounded sequence of `None` ticks leaves the smoothed
position fixed (the rig's else-branch is empty), so it never approaches the
origin. -/
theorem c2_counterexample :
    ¬ (∀ ε : ℝ, 0 < ε → ∃ N : ℕ, ∀ n : ℕ, N ≤ n →
        Vec3.length ((fun s => createRigFrame none 10 (76 / 10) s)^[n]
          rigOffOrigin).smoothedPosition < ε) := by
  intro hcl
  obtain ⟨N, hN⟩ := hcl 1 one_pos
  have hfix : (fun s => createRigFrame none 10 (76 / 10) s)^[N] rigOffOrigin =
      rigOffOrigin := Function.iterate_fixed (createRigFrame_none _ _ _) N
  have hlt := hN N le_rfl
  rw [hfix] at hlt
  have : Vec3.length ⟨1, 0, 0⟩ < 1 := hlt
  unfold Vec3.length at this
  norm_num at this

/-- The shield's tick iteration under a permanently-false `visible` prop
(no hand): tick `n` uses frame time `deltas n` and clock `elapseds n`. -/
def shieldIterNone (deltas elapseds : ℕ → ℝ) : ℕ → ShieldState → ShieldState
  | 0, s => s
  | n + 1, s => shieldFrame false (deltas n) (elapseds n) (shieldIterNone deltas elapseds n s)

lemma shieldFrame_false_scale_x (d e : ℝ) (s : ShieldState) :
    (shieldFrame false d e s).scale.x = 0.9 * s.scale.x := by
  unfold shieldFrame
  norm_num [Vec3.lerp]
  split_ifs <;> · simp only; ring

lemma shieldIterNone_scale_x (deltas elapseds : ℕ → ℝ) (n : ℕ) (s : ShieldState) :
    (shieldIterNone deltas elapseds n s).scale.x = 0.9 ^ n * s.scale.x := by
  induction n with
  | zero => simp [shieldIterNone]
  | succ n ih =>
    show (shieldFrame false (deltas n) (elapseds n)
      (shieldIterNone deltas elapseds n s)).scale.x = _
    rw [shieldFrame_false_scale_x, ih]
    ring

/-- C2 (amended): under an unbounded sequence of `None` observations the
rig state — smoothed position and orientation included — is exactly
unchanged on every tick (so it never diverges, but it approaches the origin
and identity only if it already started there), while the shield's
activation scalar decays geometrically and falls below any `ε > 0` within a
bounded number of ticks. -/
theorem c2_no_hand_amended (vw vh : ℝ) (s : RigState)
    (deltas elapseds : ℕ → ℝ) (st : ShieldState) (ε : ℝ) (hε : 0 < ε) :
    (∀ n : ℕ, (fun s => createRigFrame none vw vh s)^[n] s = s) ∧
    (∃ N : ℕ, ∀ n : ℕ, N ≤ n →
      |(shieldIterNone deltas elapseds n st).scale.x| < ε) := by
  constructor
  · intro n
    exact Function.iterate_fixed (createRigFrame_none _ _ _) n
  · have hεp : 0 < ε / (|st.scale.x| + 1) := by positivity
    obtain ⟨N, hN⟩ := exists_pow_lt_of_lt_one hεp (show (0.9 : ℝ) < 1 by norm_num)
    refine ⟨N, fun n hn => ?_⟩
    rw [shieldIterNone_scale_x, abs_mul, abs_pow]
    have h09 : |(0.9 : ℝ)| = 0.9 := abs_of_nonneg (by norm_num)
    rw [h09]
    have hm : (0.9 : ℝ) ^ n ≤ (0.9 : ℝ) ^ N :=
      pow_le_pow_of_le_one (by norm_num) (by norm_num) hn
    have hd : ε / (|st.scale.x| + 1) * (|st.scale.x| + 1) = ε := by
      field_simp
    nlinarith [abs_nonneg st.scale.x, pow_nonneg (show (0 : ℝ) ≤ 0.9 by norm_num) n,
      pow_nonneg (show (0 : ℝ) ≤ 0.9 by norm_num) N, hN, hm, hd]

/-- Witness for the amended C2 at concrete inputs. -/
theorem c2_no_hand_amended_witness :
    (0 : ℝ) < 1 ∧
    ((∀ n : ℕ, (fun s => createRigFrame none 10 (76 / 10) s)^[n] rigOffOrigin =
        rigOffOrigin) ∧
      (∃ N : ℕ, ∀ n : ℕ, N ≤ n →
        |(shieldIterNone (fun _ => 1 / 60) (fun k => k) n stHalfPercent).scale.x| < 1)) :=
  ⟨one_pos,
   c2_no_hand_amended 10 (76 / 10) rigOffOrigin (fun _ => 1 / 60) (fun k => k)
     stHalfPercent 1 one_pos⟩

/-! ## C3: NaN landmarks are not rejected -/

/-- A frame whose wrist landmark has a NaN x-coordinate (`none`); the
middle-finger MCP and tip carry the §8 finite values. -/
def lmNaN : Fin 21 → LandmarkFP := fun i =>
  if i = 0 then ⟨none, some (1 / 2), some 0⟩
  else if i = 9 then ⟨some (1 / 2), some (3 / 10), some 0⟩
  else ⟨some (1 / 2), some (1 / 20), some 0⟩

lemma lmNaN_0 : lmNaN 0 = ⟨none, some (1 / 2), some 0⟩ := rfl

lemma lmNaN_9 : lmNaN 9 = ⟨some (1 / 2), some (3 / 10), some 0⟩ := rfl

lemma lmNaN_12 : lmNaN 12 = ⟨some (1 / 2), some (1 / 20), some 0⟩ := rfl

/-- C3 is violated by the code: with a NaN wrist coordinate the interpreter
does not reject the frame; it delivers an observation whose position `x`
and entire rotation are NaN (and whose gesture is `FIST`, because every
comparison against NaN is false). -/
theorem c3_nan_frame_not_rejected :
    onResultsFP (some lmNaN) =
      some ⟨⟨none, some 0, some 0⟩, ⟨none, none, none, none⟩, Gesture.FIST⟩ ∧
    onResultsFP (some lmNaN) ≠ none := by
  have heval : onResultsFP (some lmNaN) =
      some ⟨⟨none, some 0, some 0⟩, ⟨none, none, none, none⟩, Gesture.FIST⟩ := by
    show some _ = _
    rw [lmNaN_0, lmNaN_9, lmNaN_12]
    simp only [FP.sub, FP.mul, FP.add, FP.neg, FP.sq, FP.sqrtFP, FP.div, FP.gtB, FP.ltB,
      FP.eqB, FP.truthyOr1, Vec3FP.normalizeFP, Vec3FP.lengthFP, setFromUnitVectorsFP,
      QuatFP.normalizeFP, QuatFP.lengthFP]
    norm_num
  exact ⟨heval, by rw [heval]; exact fun hcon => Option.noConfusion hcon⟩

/-! ## C8: iterated smoothing -/

/-- Iterating the rig's position/activation smoothing step
(`lerp(target, 0.1)`). -/
def lerpIter (target : Vec3) : ℕ → Vec3 → Vec3
  | 0, v => v
  | n + 1, v => (lerpIter target n v).lerp target 0.1

/-- Iterating the rig's orientation smoothing step (`slerp(qb, 0.1)`). -/
def slerpIter (qb : Quat) : ℕ → Quat → Quat
  | 0, q => q
  | n + 1, q => (slerpIter qb n q).slerp qb 0.1

/-- Componentwise distance between two quaternions (Euclidean norm of the
difference), used to state how close an iterate is to the target value. -/
def Quat.distTo (a b : Quat) : ℝ :=
  Quat.length ⟨a.x - b.x, a.y - b.y, a.z - b.z, a.w - b.w⟩

/-- The negated quaternion (same rotation, opposite sign). -/
def Quat.negQ (q : Quat) : Quat := ⟨-q.x, -q.y, -q.z, -q.w⟩

lemma lerp_scalar_between (x t : ℝ) :
    min x t ≤ x + (t - x) * 0.1 ∧ x + (t - x) * 0.1 ≤ max x t := by
  rcases le_total x t with h | h
  · rw [min_eq_left h, max_eq_right h]
    constructor <;> nlinarith
  · rw [min_eq_right h, max_eq_left h]
    constructor <;> nlinarith

lemma lerp_scalar_dist (x t : ℝ) : |x + (t - x) * 0.1 - t| = 0.9 * |x - t| := by
  rw [show x + (t - x) * 0.1 - t = 0.9 * (x - t) by ring, abs_mul,
    abs_of_nonneg (show (0 : ℝ) ≤ 0.9 by norm_num)]

lemma lerpIter_succ (target : Vec3) (n : ℕ) (v : Vec3) :
    lerpIter target (n + 1) v = (lerpIter target n v).lerp target 0.1 := rfl

lemma lerpIter_dist_x (target : Vec3) (n : ℕ) (v : Vec3) :
    |(lerpIter target n v).x - target.x| = 0.9 ^ n * |v.x - target.x| := by
  induction n with
  | zero => simp [lerpIter]
  | succ n ih =>
    rw [lerpIter_succ]
    show |(lerpIter target n v).x + (target.x - (lerpIter target n v).x) * 0.1 - target.x| = _
    rw [lerp_scalar_dist, ih]
    ring

lemma lerpIter_dist_y (target : Vec3) (n : ℕ) (v : Vec3) :
    |(lerpIter target n v).y - target.y| = 0.9 ^ n * |v.y - target.y| := by
  induction n with
  | zero => simp [lerpIter]
  | succ n ih =>
    rw [lerpIter_succ]
    show |(lerpIter target n v).y + (target.y - (lerpIter target n v).y) * 0.1 - target.y| = _
    rw [lerp_scalar_dist, ih]
    ring

lemma lerpIter_dist_z (target : Vec3) (n : ℕ) (v : Vec3) :
    |(lerpIter target n v).z - target.z| = 0.9 ^ n * |v.z - target.z| := by
  induction n with
  | zero => simp [lerpIter]
  | succ n ih =>
    rw [lerpIter_succ]
    show |(lerpIter target n v).z + (target.z - (lerpIter target n v).z) * 0.1 - target.z| = _
    rw [lerp_scalar_dist, ih]
    ring

lemma pow_mul_abs_lt (a ε : ℝ) (hε : 0 < ε) :
    ∃ N : ℕ, ∀ n : ℕ, N ≤ n → (0.9 : ℝ) ^ n * |a| < ε := by
  have hεp : 0 < ε / (|a| + 1) := by positivity
  obtain ⟨N, hN⟩ := exists_pow_lt_of_lt_one hεp (show (0.9 : ℝ) < 1 by norm_num)
  refine ⟨N, fun n hn => ?_⟩
  have hm : (0.9 : ℝ) ^ n ≤ (0.9 : ℝ) ^ N :=
    pow_le_pow_of_le_one (by norm_num) (by norm_num) hn
  have hd : ε / (|a| + 1) * (|a| + 1) = ε := by field_simp
  nlinarith [abs_nonneg a, pow_nonneg (show (0 : ℝ) ≤ 0.9 by norm_num) n,
    pow_nonneg (show (0 : ℝ) ≤ 0.9 by norm_num) N, hN, hm, hd]

lemma slerp_fixed_antipodal :
    Quat.slerp ⟨0, 0, 0, 1⟩ ⟨0, 0, 0, -1⟩ 0.1 = ⟨0, 0, 0, 1⟩ := by
  unfold Quat.slerp
  rw [if_neg (show ¬(0.1 : ℝ) = 0 by norm_num), if_neg (show ¬(0.1 : ℝ) = 1 by norm_num)]
  have hd : Quat.dot ⟨0, 0, 0, 1⟩ ⟨0, 0, 0, -1⟩ = -1 := by
    unfold Quat.dot
    norm_num
  simp only [hd]
  norm_num

/-- Counterexample to C8 as stated: slerping from the identity toward its
antipode `(0,0,0,-1)` is a fixed point of the smoothing step (the dot
product is negative, so the step targets the flipped quaternion, which
coincides with the start), so the iterates never come within ε of the
target quaternion value — convergence holds only up to quaternion sign. -/
theorem c8_counterexample :
    (∀ n : ℕ, slerpIter ⟨0, 0, 0, -1⟩ n ⟨0, 0, 0, 1⟩ = ⟨0, 0, 0, 1⟩) ∧
    ¬ (∀ ε : ℝ, 0 < ε → ∃ N : ℕ, ∀ n : ℕ, N ≤ n →
        Quat.distTo (slerpIter ⟨0, 0, 0, -1⟩ n ⟨0, 0, 0, 1⟩) ⟨0, 0, 0, -1⟩ < ε) := by
  have hfix : ∀ n : ℕ, slerpIter ⟨0, 0, 0, -1⟩ n ⟨0, 0, 0, 1⟩ = ⟨0, 0, 0, 1⟩ := by
    intro n
    induction n with
    | zero => rfl
    | succ n ih =>
      show (slerpIter _ n _).slerp _ 0.1 = _
      rw [ih, slerp_fixed_antipodal]
  refine ⟨hfix, fun hcl => ?_⟩
  obtain ⟨N, hN⟩ := hcl 1 one_pos
  have h2 := hN N le_rfl
  rw [hfix N] at h2
  have hdist : Quat.distTo ⟨0, 0, 0, 1⟩ ⟨0, 0, 0, -1⟩ = 2 := by
    unfold Quat.distTo Quat.length
    norm_num
    rw [show (4 : ℝ) = 2 ^ 2 by norm_num, Real.sqrt_sq (by norm_num)]
  rw [hdist] at h2
  norm_num at h2

/-! ### Per-step analysis of the three.js slerp -/

lemma qdot_sq_le (a b : Quat) : (a.dot b) ^ 2 ≤ a.dot a * b.dot b := by
  unfold Quat.dot
  nlinarith [sq_nonneg (a.x * b.y - a.y * b.x), sq_nonneg (a.x * b.z - a.z * b.x),
    sq_nonneg (a.x * b.w - a.w * b.x), sq_nonneg (a.y * b.z - a.z * b.y),
    sq_nonneg (a.y * b.w - a.w * b.y), sq_nonneg (a.z * b.w - a.w * b.z)]

lemma qdot_abs_le_one {a b : Quat} (ha : a.dot a = 1) (hb : b.dot b = 1) :
    |a.dot b| ≤ 1 := by
  have h := qdot_sq_le a b
  rw [ha, hb] at h
  nlinarith [sq_abs (a.dot b), abs_nonneg (a.dot b)]

lemma qdot_negQ (a b : Quat) : a.dot (Quat.negQ b) = -(a.dot b) := by
  unfold Quat.dot Quat.negQ
  ring

lemma negQ_unit {b : Quat} (hb : b.dot b = 1) :
    (Quat.negQ b).dot (Quat.negQ b) = 1 := by
  simp only [Quat.dot, Quat.negQ] at hb ⊢
  nlinarith [hb]

lemma Quat.length_eq_sqrt_dot (q : Quat) : q.length = sqrt (q.dot q) := by
  unfold Quat.length Quat.dot
  congr 1
  ring

lemma Quat.dot_normalize_right (m b : Quat) (hpos : 0 < m.dot m) :
    (Quat.normalize m).dot b = m.dot b / sqrt (m.dot m) := by
  have hlen : m.length = sqrt (m.dot m) := Quat.length_eq_sqrt_dot m
  have hlpos : 0 < m.length := by rw [hlen]; exact Real.sqrt_pos.mpr hpos
  unfold Quat.normalize
  rw [if_neg (ne_of_gt hlpos)]
  show Quat.dot ⟨m.x * (1 / m.length), m.y * (1 / m.length), m.z * (1 / m.length),
    m.w * (1 / m.length)⟩ b = _
  unfold Quat.dot at *
  rw [hlen]
  field_simp

lemma Quat.dot_normalize_self (m : Quat) (hpos : 0 < m.dot m) :
    (Quat.normalize m).dot (Quat.normalize m) = 1 := by
  have hlen : m.length = sqrt (m.dot m) := Quat.length_eq_sqrt_dot m
  have hlpos : 0 < m.length := by rw [hlen]; exact Real.sqrt_pos.mpr hpos
  have hsq : sqrt (m.dot m) ^ 2 = m.dot m := Real.sq_sqrt (le_of_lt hpos)
  unfold Quat.normalize
  rw [if_neg (ne_of_gt hlpos)]
  show Quat.dot ⟨m.x * (1 / m.length), m.y * (1 / m.length), m.z * (1 / m.length),
    m.w * (1 / m.length)⟩ ⟨m.x * (1 / m.length), m.y * (1 / m.length),
    m.z * (1 / m.length), m.w * (1 / m.length)⟩ = 1
  unfold Quat.dot at *
  rw [hlen]
  field_simp

lemma atan2_sqrt_arccos {c : ℝ} (hc0 : 0 ≤ c) (hc1 : c < 1) :
    atan2 (sqrt (1 - c * c)) c = Real.arccos c := by
  rcases eq_or_lt_of_le hc0 with hc | hc
  · unfold atan2
    rw [if_neg (by rw [← hc]; exact lt_irrefl 0), if_neg (by rw [← hc]; exact lt_irrefl 0),
      if_pos (by rw [← hc]; norm_num [Real.sqrt_one])]
    rw [← hc, Real.arccos_zero]
  · unfold atan2
    rw [if_pos hc]
    have hs : sqrt (1 - c * c) = Real.sin (Real.arccos c) := by
      rw [Real.sin_arccos]
      congr 1
      ring
    have hcc : Real.cos (Real.arccos c) = c := Real.cos_arccos (by linarith) (by linarith)
    rw [hs, show Real.sin (Real.arccos c) / c = Real.tan (Real.arccos c) by
      rw [Real.tan_eq_sin_div_cos, hcc]]
    exact Real.arctan_tan
      (lt_of_lt_of_le (show -(π / 2) < (0 : ℝ) by linarith [Real.pi_pos])
        (Real.arccos_nonneg c))
      (Real.arccos_lt_pi_div_two.mpr hc)

lemma slerp_neg_of_dot_neg (q qb : Quat) (hd : q.dot qb < 0) :
    q.slerp qb 0.1 = q.slerp (Quat.negQ qb) 0.1 := by
  have hlit : q.dot ⟨-qb.x, -qb.y, -qb.z, -qb.w⟩ = -(q.dot qb) := by
    simp only [Quat.dot]
    ring
  have hd2' : ¬ q.dot ⟨-qb.x, -qb.y, -qb.z, -qb.w⟩ < 0 := by
    rw [hlit]
    linarith
  have hd3 : ¬ -q.dot qb < 0 := by linarith
  unfold Quat.slerp Quat.negQ
  rw [if_neg (show ¬(0.1 : ℝ) = 0 by norm_num), if_neg (show ¬(0.1 : ℝ) = 1 by norm_num),
    if_neg (show ¬(0.1 : ℝ) = 0 by norm_num), if_neg (show ¬(0.1 : ℝ) = 1 by norm_num)]
  simp only [if_pos hd, if_neg hd2', hlit, if_neg hd3]

lemma slerp_fixed_of_dot_ge_one (q qb : Quat) (hd0 : 0 ≤ q.dot qb)
    (h1 : 1 ≤ q.dot qb) : q.slerp qb 0.1 = q := by
  unfold Quat.slerp
  rw [if_neg (show ¬(0.1 : ℝ) = 0 by norm_num), if_neg (show ¬(0.1 : ℝ) = 1 by norm_num)]
  simp only [if_neg (not_lt.mpr hd0)]
  rw [if_pos h1]

lemma slerp_nlerp_branch (q qb : Quat) (hd0 : 0 ≤ q.dot qb) (hc1 : q.dot qb < 1)
    (hs2 : 1 - q.dot qb * q.dot qb ≤ numberEPSILON) :
    q.slerp qb 0.1 =
      Quat.normalize ⟨0.9 * q.x + 0.1 * qb.x, 0.9 * q.y + 0.1 * qb.y,
        0.9 * q.z + 0.1 * qb.z, 0.9 * q.w + 0.1 * qb.w⟩ := by
  unfold Quat.slerp
  rw [if_neg (show ¬(0.1 : ℝ) = 0 by norm_num), if_neg (show ¬(0.1 : ℝ) = 1 by norm_num)]
  simp only [if_neg (not_lt.mpr hd0)]
  rw [if_neg (not_le.mpr hc1), if_pos hs2]
  norm_num

lemma slerp_main_branch (q qb : Quat) (hd0 : 0 ≤ q.dot qb) (hc1 : q.dot qb < 1)
    (hs2 : numberEPSILON < 1 - q.dot qb * q.dot qb) :
    q.slerp qb 0.1 =
      ⟨q.x * (Real.sin (0.9 * Real.arccos (q.dot qb)) / Real.sin (Real.arccos (q.dot qb))) +
         qb.x * (Real.sin (0.1 * Real.arccos (q.dot qb)) / Real.sin (Real.arccos (q.dot qb))),
       q.y * (Real.sin (0.9 * Real.arccos (q.dot qb)) / Real.sin (Real.arccos (q.dot qb))) +
         qb.y * (Real.sin (0.1 * Real.arccos (q.dot qb)) / Real.sin (Real.arccos (q.dot qb))),
       q.z * (Real.sin (0.9 * Real.arccos (q.dot qb)) / Real.sin (Real.arccos (q.dot qb))) +
         qb.z * (Real.sin (0.1 * Real.arccos (q.dot qb)) / Real.sin (Real.arccos (q.dot qb))),
       q.w * (Real.sin (0.9 * Real.arccos (q.dot qb)) / Real.sin (Real.arccos (q.dot qb))) +
         qb.w * (Real.sin (0.1 * Real.arccos (q.dot qb)) / Real.sin (Real.arccos (q.dot qb)))⟩ := by
  have hθ : atan2 (sqrt (1 - q.dot qb * q.dot qb)) (q.dot qb) = Real.arccos (q.dot qb) :=
    atan2_sqrt_arccos hd0 hc1
  have hs : sqrt (1 - q.dot qb * q.dot qb) = Real.sin (Real.arccos (q.dot qb)) := by
    rw [Real.sin_arccos]
    congr 1
    ring
  unfold Quat.slerp
  rw [if_neg (show ¬(0.1 : ℝ) = 0 by norm_num), if_neg (show ¬(0.1 : ℝ) = 1 by norm_num)]
  simp only [if_neg (not_lt.mpr hd0)]
  rw [if_neg (not_le.mpr hc1), if_neg (not_le.mpr hs2), hθ, hs]
  norm_num

lemma sin_dot_identity (θ : ℝ) :
    Real.sin (0.9 * θ) * Real.cos θ + Real.sin (0.1 * θ) =
      Real.sin θ * Real.cos (0.9 * θ) := by
  rw [show (0.1 : ℝ) * θ = θ - 0.9 * θ by ring, Real.sin_sub]
  ring

lemma sin_sq_identity (θ : ℝ) :
    Real.sin (0.9 * θ) ^ 2 +
        2 * Real.sin (0.9 * θ) * Real.sin (0.1 * θ) * Real.cos θ +
        Real.sin (0.1 * θ) ^ 2 = Real.sin θ ^ 2 := by
  rw [show (0.1 : ℝ) * θ = θ - 0.9 * θ by ring, Real.sin_sub]
  have h1 := Real.sin_sq_add_cos_sq (0.9 * θ)
  have h2 := Real.sin_sq_add_cos_sq θ
  nlinarith [h1, h2]

lemma qdot_comb_self (q qb : Quat) (hq : q.dot q = 1) (hqb : qb.dot qb = 1)
    (rA rB : ℝ) :
    Quat.dot ⟨q.x * rA + qb.x * rB, q.y * rA + qb.y * rB,
        q.z * rA + qb.z * rB, q.w * rA + qb.w * rB⟩
      ⟨q.x * rA + qb.x * rB, q.y * rA + qb.y * rB,
        q.z * rA + qb.z * rB, q.w * rA + qb.w * rB⟩ =
      rA ^ 2 + 2 * rA * rB * (q.dot qb) + rB ^ 2 := by
  simp only [Quat.dot] at hq hqb ⊢
  linear_combination rA ^ 2 * hq + rB ^ 2 * hqb

lemma qdot_comb_right (q qb : Quat) (hqb : qb.dot qb = 1) (rA rB : ℝ) :
    Quat.dot ⟨q.x * rA + qb.x * rB, q.y * rA + qb.y * rB,
        q.z * rA + qb.z * rB, q.w * rA + qb.w * rB⟩ qb =
      rA * (q.dot qb) + rB := by
  simp only [Quat.dot] at hqb ⊢
  linear_combination rB * hqb

/-- One three.js slerp step at `t = 0.1`, starting from a unit quaternion
whose dot product with the unit target is nonnegative: the result is unit,
its dot with the target is nonnegative and no smaller than before, it
equals `cos(0.9·arccos d)` in the general spherical branch, and in the
near-parallel branch the gap `1 - dot²` shrinks by a factor `81/82`. -/
lemma slerp_step_nonneg (q qb : Quat) (hq : q.dot q = 1) (hqb : qb.dot qb = 1)
    (hd0 : 0 ≤ q.dot qb) :
    (q.slerp qb 0.1).dot (q.slerp qb 0.1) = 1 ∧
    q.dot qb ≤ (q.slerp qb 0.1).dot qb ∧
    0 ≤ (q.slerp qb 0.1).dot qb ∧
    (numberEPSILON < 1 - q.dot qb * q.dot qb →
      (q.slerp qb 0.1).dot qb = Real.cos (0.9 * Real.arccos (q.dot qb))) ∧
    (1 - q.dot qb * q.dot qb ≤ numberEPSILON →
      1 - (q.slerp qb 0.1).dot qb * (q.slerp qb 0.1).dot qb ≤
        81 / 82 * (1 - q.dot qb * q.dot qb)) := by
  have habs : |q.dot qb| ≤ 1 := qdot_abs_le_one hq hqb
  by_cases h1 : (1 : ℝ) ≤ q.dot qb
  · -- dot is exactly 1; the step returns the receiver unchanged
    have hd1 : q.dot qb = 1 := le_antisymm (le_of_abs_le habs) h1
    have hstep : q.slerp qb 0.1 = q := slerp_fixed_of_dot_ge_one q qb hd0 h1
    rw [hstep]
    refine ⟨hq, le_refl _, hd0, ?_, ?_⟩
    · intro hgt
      rw [hd1] at hgt
      norm_num at hgt
      exact absurd hgt (not_lt.mpr (le_of_lt numberEPSILON_pos))
    · intro _
      rw [hd1]
      norm_num
  · push_neg at h1
    by_cases hsm : 1 - q.dot qb * q.dot qb ≤ numberEPSILON
    · -- near-parallel branch: normalized linear interpolation
      have hstep := slerp_nlerp_branch q qb hd0 h1 hsm
      have h1d : 0 ≤ 1 - q.dot qb * q.dot qb := by nlinarith
      set m : Quat := ⟨0.9 * q.x + 0.1 * qb.x, 0.9 * q.y + 0.1 * qb.y,
        0.9 * q.z + 0.1 * qb.z, 0.9 * q.w + 0.1 * qb.w⟩ with hmdef
      have hmm : m.dot m = 0.82 + 0.18 * (q.dot qb) := by
        rw [hmdef]
        simp only [Quat.dot] at hq hqb ⊢
        linear_combination (0.81 : ℝ) * hq + (0.01 : ℝ) * hqb
      have hmb : m.dot qb = 0.9 * (q.dot qb) + 0.1 := by
        rw [hmdef]
        simp only [Quat.dot] at hqb ⊢
        linear_combination (0.1 : ℝ) * hqb
      have hmpos : 0 < m.dot m := by
        rw [hmm]
        linarith
      have hL2 : sqrt (m.dot m) ^ 2 = m.dot m := Real.sq_sqrt (le_of_lt hmpos)
      have hLpos : 0 < sqrt (m.dot m) := Real.sqrt_pos.mpr hmpos
      have hstep' : q.slerp qb 0.1 = Quat.normalize m := by
        rw [hstep, hmdef]
      have hdotv : (q.slerp qb 0.1).dot qb = (0.9 * (q.dot qb) + 0.1) / sqrt (m.dot m) := by
        rw [hstep', Quat.dot_normalize_right m qb hmpos, hmb]
      have hquot0 : 0 ≤ (0.9 * (q.dot qb) + 0.1) / sqrt (m.dot m) :=
        div_nonneg (by linarith) (le_of_lt hLpos)
      refine ⟨by rw [hstep']; exact Quat.dot_normalize_self m hmpos, ?_, ?_, ?_, ?_⟩
      · -- monotone: d ≤ (0.9 d + 0.1)/L
        rw [hdotv]
        have ha2 : (q.dot qb) ^ 2 ≤ ((0.9 * (q.dot qb) + 0.1) / sqrt (m.dot m)) ^ 2 := by
          rw [div_pow, hL2, hmm, le_div_iff₀ (by linarith)]
          nlinarith [h1d, hd0]
        calc q.dot qb = sqrt ((q.dot qb) ^ 2) := (Real.sqrt_sq hd0).symm
          _ ≤ sqrt (((0.9 * (q.dot qb) + 0.1) / sqrt (m.dot m)) ^ 2) :=
            Real.sqrt_le_sqrt ha2
          _ = (0.9 * (q.dot qb) + 0.1) / sqrt (m.dot m) := Real.sqrt_sq hquot0
      · rw [hdotv]
        exact hquot0
      · intro hgt
        linarith
      · intro _
        rw [hdotv]
        have hrw : ((0.9 * (q.dot qb) + 0.1) / sqrt (m.dot m)) *
            ((0.9 * (q.dot qb) + 0.1) / sqrt (m.dot m)) =
            (0.9 * (q.dot qb) + 0.1) ^ 2 / (0.82 + 0.18 * (q.dot qb)) := by
          rw [div_mul_div_comm, ← sq, ← sq, hL2, hmm]
        rw [hrw]
        have hBpos : (0 : ℝ) < 0.82 + 0.18 * (q.dot qb) := by linarith
        rw [show (1 : ℝ) - (0.9 * (q.dot qb) + 0.1) ^ 2 / (0.82 + 0.18 * (q.dot qb)) =
          ((0.82 + 0.18 * (q.dot qb)) - (0.9 * (q.dot qb) + 0.1) ^ 2) /
            (0.82 + 0.18 * (q.dot qb)) by field_simp, div_le_iff₀ hBpos]
        nlinarith [h1d, hd0]
    · -- general spherical branch
      push_neg at hsm
      have hstep := slerp_main_branch q qb hd0 h1 hsm
      set θ := Real.arccos (q.dot qb) with hθdef
      have hθnn : 0 ≤ θ := Real.arccos_nonneg _
      have hθpi2 : θ ≤ π / 2 := Real.arccos_le_pi_div_two.mpr hd0
      have hct : Real.cos θ = q.dot qb :=
        Real.cos_arccos (by linarith [le_of_abs_le habs, neg_abs_le (q.dot qb)])
          (le_of_lt h1)
      have hst : Real.sin θ = sqrt (1 - q.dot qb * q.dot qb) := by
        rw [hθdef, Real.sin_arccos]
        congr 1
        ring
      have hstpos : 0 < Real.sin θ := by
        rw [hst]
        exact Real.sqrt_pos.mpr (lt_trans numberEPSILON_pos hsm)
      have hstne : Real.sin θ ≠ 0 := ne_of_gt hstpos
      have hdotv : (q.slerp qb 0.1).dot qb = Real.cos (0.9 * θ) := by
        rw [hstep, qdot_comb_right q qb hqb
          (Real.sin (0.9 * θ) / Real.sin θ) (Real.sin (0.1 * θ) / Real.sin θ)]
        rw [← hct]
        field_simp
        linear_combination sin_dot_identity θ
      have hcos09 : 0 ≤ Real.cos (0.9 * θ) := by
        apply Real.cos_nonneg_of_mem_Icc
        constructor
        · nlinarith [Real.pi_pos]
        · nlinarith
      refine ⟨?_, ?_, ?_, ?_, ?_⟩
      · rw [hstep, qdot_comb_self q qb hq hqb
          (Real.sin (0.9 * θ) / Real.sin θ) (Real.sin (0.1 * θ) / Real.sin θ)]
        rw [← hct]
        have hcomb : (Real.sin (0.9 * θ) / Real.sin θ) ^ 2 +
            2 * (Real.sin (0.9 * θ) / Real.sin θ) * (Real.sin (0.1 * θ) / Real.sin θ) *
              Real.cos θ +
            (Real.sin (0.1 * θ) / Real.sin θ) ^ 2 =
            (Real.sin (0.9 * θ) ^ 2 +
              2 * Real.sin (0.9 * θ) * Real.sin (0.1 * θ) * Real.cos θ +
              Real.sin (0.1 * θ) ^ 2) / Real.sin θ ^ 2 := by
          field_simp
          ring
        rw [hcomb, sin_sq_identity θ, div_self (pow_ne_zero 2 hstne)]
      · rw [hdotv, ← hct]
        apply Real.cos_le_cos_of_nonneg_of_le_pi
        · nlinarith
        · linarith [Real.pi_pos]
        · nlinarith
      · rw [hdotv]
        exact hcos09
      · intro _
        rw [hdotv, hθdef]
      · intro hcon
        linarith

/-- The step analysis phrased with `|dot|`, valid for any sign of the dot
product (three.js flips the target when the dot is negative). -/
lemma slerp_step_abs (q qb : Quat) (hq : q.dot q = 1) (hqb : qb.dot qb = 1) :
    (q.slerp qb 0.1).dot (q.slerp qb 0.1) = 1 ∧
    |q.dot qb| ≤ |(q.slerp qb 0.1).dot qb| ∧
    (numberEPSILON < 1 - q.dot qb * q.dot qb →
      |(q.slerp qb 0.1).dot qb| = Real.cos (0.9 * Real.arccos |q.dot qb|)) ∧
    (1 - q.dot qb * q.dot qb ≤ numberEPSILON →
      1 - (q.slerp qb 0.1).dot qb * (q.slerp qb 0.1).dot qb ≤
        81 / 82 * (1 - q.dot qb * q.dot qb)) := by
  by_cases hd : q.dot qb < 0
  · have hflip := slerp_neg_of_dot_neg q qb hd
    have hqb' := negQ_unit hqb
    have hd0' : 0 ≤ q.dot (Quat.negQ qb) := by
      rw [qdot_negQ]
      linarith
    obtain ⟨u1, u2, u3, u4, u5⟩ := slerp_step_nonneg q (Quat.negQ qb) hq hqb' hd0'
    have habs1 : |q.dot qb| = q.dot (Quat.negQ qb) := by
      rw [qdot_negQ, abs_of_neg hd]
    have h5 : 0 ≤ (q.slerp qb 0.1).dot (Quat.negQ qb) := by
      rw [hflip]
      exact u3
    have habs2 : |(q.slerp qb 0.1).dot qb| = (q.slerp qb 0.1).dot (Quat.negQ qb) := by
      rw [qdot_negQ] at h5 ⊢
      rw [abs_of_nonpos (by linarith)]
    have hpre : ∀ h : numberEPSILON < 1 - q.dot qb * q.dot qb,
        numberEPSILON < 1 - q.dot (Quat.negQ qb) * q.dot (Quat.negQ qb) := by
      intro h
      rw [qdot_negQ, show -(q.dot qb) * -(q.dot qb) = q.dot qb * q.dot qb by ring]
      exact h
    have hpre2 : ∀ h : 1 - q.dot qb * q.dot qb ≤ numberEPSILON,
        1 - q.dot (Quat.negQ qb) * q.dot (Quat.negQ qb) ≤ numberEPSILON := by
      intro h
      rw [qdot_negQ, show -(q.dot qb) * -(q.dot qb) = q.dot qb * q.dot qb by ring]
      exact h
    refine ⟨by rw [hflip]; exact u1, ?_, ?_, ?_⟩
    · rw [habs1, habs2, hflip]
      exact u2
    · intro h
      rw [habs2, hflip, u4 (hpre h), ← habs1]
    · intro h
      have hres := u5 (hpre2 h)
      rw [← hflip, qdot_negQ,
        show -((q.slerp qb 0.1).dot qb) * -((q.slerp qb 0.1).dot qb) =
          (q.slerp qb 0.1).dot qb * (q.slerp qb 0.1).dot qb by ring,
        qdot_negQ,
        show -(q.dot qb) * -(q.dot qb) = q.dot qb * q.dot qb by ring] at hres
      exact hres
  · push_neg at hd
    obtain ⟨u1, u2, u3, u4, u5⟩ := slerp_step_nonneg q qb hq hqb hd
    refine ⟨u1, ?_, ?_, u5⟩
    · rw [abs_of_nonneg hd, abs_of_nonneg u3]
      exact u2
    · intro h
      rw [abs_of_nonneg hd, abs_of_nonneg u3]
      exact u4 h

lemma slerpIter_succ (qb : Quat) (n : ℕ) (q : Quat) :
    slerpIter qb (n + 1) q = (slerpIter qb n q).slerp qb 0.1 := rfl

lemma slerpIter_unit (q qb : Quat) (hq : q.dot q = 1) (hqb : qb.dot qb = 1) :
    ∀ n : ℕ, (slerpIter qb n q).dot (slerpIter qb n q) = 1 := by
  intro n
  induction n with
  | zero => exact hq
  | succ n ih => exact (slerp_step_abs _ qb ih hqb).1

lemma slerpIter_mono (q qb : Quat) (hq : q.dot q = 1) (hqb : qb.dot qb = 1) (n : ℕ) :
    |(slerpIter qb n q).dot qb| ≤ |(slerpIter qb (n + 1) q).dot qb| :=
  (slerp_step_abs _ qb (slerpIter_unit q qb hq hqb n) hqb).2.1

lemma slerpIter_abs_le_one (q qb : Quat) (hq : q.dot q = 1) (hqb : qb.dot qb = 1)
    (n : ℕ) : |(slerpIter qb n q).dot qb| ≤ 1 :=
  qdot_abs_le_one (slerpIter_unit q qb hq hqb n) hqb

lemma slerpIter_gap_nonneg (q qb : Quat) (hq : q.dot q = 1) (hqb : qb.dot qb = 1)
    (n : ℕ) : 0 ≤ 1 - (slerpIter qb n q).dot qb * (slerpIter qb n q).dot qb := by
  have h1 := slerpIter_abs_le_one q qb hq hqb n
  have h2 := abs_nonneg ((slerpIter qb n q).dot qb)
  nlinarith [abs_mul_abs_self ((slerpIter qb n q).dot qb)]

lemma slerpIter_gap_step (q qb : Quat) (hq : q.dot q = 1) (hqb : qb.dot qb = 1)
    (n : ℕ) :
    1 - (slerpIter qb (n + 1) q).dot qb * (slerpIter qb (n + 1) q).dot qb ≤
      1 - (slerpIter qb n q).dot qb * (slerpIter qb n q).dot qb := by
  have hm := slerpIter_mono q qb hq hqb n
  have h0 := abs_nonneg ((slerpIter qb n q).dot qb)
  nlinarith [abs_mul_abs_self ((slerpIter qb n q).dot qb),
    abs_mul_abs_self ((slerpIter qb (n + 1) q).dot qb)]

lemma slerpIter_gap_mono (q qb : Quat) (hq : q.dot q = 1) (hqb : qb.dot qb = 1)
    {m n : ℕ} (h : m ≤ n) :
    1 - (slerpIter qb n q).dot qb * (slerpIter qb n q).dot qb ≤
      1 - (slerpIter qb m q).dot qb * (slerpIter qb m q).dot qb := by
  induction n, h using Nat.le_induction with
  | base => exact le_rfl
  | succ n hmn ih => exact le_trans (slerpIter_gap_step q qb hq hqb n) ih

lemma slerpIter_theta (q qb : Quat) (hq : q.dot q = 1) (hqb : qb.dot qb = 1) :
    ∀ n : ℕ,
      (∀ k : ℕ, k < n → numberEPSILON <
        1 - (slerpIter qb k q).dot qb * (slerpIter qb k q).dot qb) →
      Real.arccos |(slerpIter qb n q).dot qb| =
        0.9 ^ n * Real.arccos |q.dot qb| := by
  intro n
  induction n with
  | zero => intro _; simp [slerpIter]
  | succ n ih =>
    intro hall
    have hth := ih (fun k hk => hall k (Nat.lt_succ_of_lt hk))
    have hstep := (slerp_step_abs (slerpIter qb n q) qb
      (slerpIter_unit q qb hq hqb n) hqb).2.2.1 (hall n (Nat.lt_succ_self n))
    rw [slerpIter_succ, hstep,
      Real.arccos_cos (mul_nonneg (by norm_num) (Real.arccos_nonneg _))
        (by nlinarith [Real.arccos_le_pi |(slerpIter qb n q).dot qb|, Real.pi_pos]),
      hth]
    ring

lemma slerpIter_gap_decay (q qb : Quat) (hq : q.dot q = 1) (hqb : qb.dot qb = 1)
    (k : ℕ)
    (h0 : 1 - (slerpIter qb k q).dot qb * (slerpIter qb k q).dot qb ≤ numberEPSILON) :
    ∀ m : ℕ,
      1 - (slerpIter qb (k + m) q).dot qb * (slerpIter qb (k + m) q).dot qb ≤
        (81 / 82) ^ m *
          (1 - (slerpIter qb k q).dot qb * (slerpIter qb k q).dot qb) := by
  intro m
  induction m with
  | zero => simp
  | succ m ih =>
    have hg0 := slerpIter_gap_nonneg q qb hq hqb k
    have hpow1 : ((81 : ℝ) / 82) ^ m ≤ 1 :=
      pow_le_one₀ (by norm_num) (by norm_num)
    have hub : 1 - (slerpIter qb (k + m) q).dot qb * (slerpIter qb (k + m) q).dot qb ≤
        numberEPSILON := by
      nlinarith [ih, hpow1, hg0]
    have hstep := (slerp_step_abs (slerpIter qb (k + m) q) qb
      (slerpIter_unit q qb hq hqb (k + m)) hqb).2.2.2 hub
    have : k + (m + 1) = (k + m) + 1 := by ring
    rw [this, slerpIter_succ]
    calc 1 - ((slerpIter qb (k + m) q).slerp qb 0.1).dot qb *
          ((slerpIter qb (k + m) q).slerp qb 0.1).dot qb ≤
        81 / 82 * (1 - (slerpIter qb (k + m) q).dot qb * (slerpIter qb (k + m) q).dot qb) := hstep
      _ ≤ 81 / 82 * ((81 / 82) ^ m *
          (1 - (slerpIter qb k q).dot qb * (slerpIter qb k q).dot qb)) := by
          nlinarith [ih]
      _ = (81 / 82) ^ (m + 1) *
          (1 - (slerpIter qb k q).dot qb * (slerpIter qb k q).dot qb) := by
          ring

/-- Iterated three.js slerp from a unit quaternion drives `|dot|` with the
unit target above `1 - ε` for every `ε > 0`: the iterates converge to the
target up to quaternion sign. -/
lemma slerpIter_conv (q qb : Quat) (hq : q.dot q = 1) (hqb : qb.dot qb = 1)
    (ε : ℝ) (hε : 0 < ε) :
    ∃ N : ℕ, ∀ n : ℕ, N ≤ n → 1 - |(slerpIter qb n q).dot qb| < ε := by
  have hrpos : 0 < sqrt numberEPSILON / π :=
    div_pos (Real.sqrt_pos.mpr numberEPSILON_pos) Real.pi_pos
  obtain ⟨K, hK⟩ := exists_pow_lt_of_lt_one hrpos (show (0.9 : ℝ) < 1 by norm_num)
  have hn0 : ∃ k : ℕ,
      1 - (slerpIter qb k q).dot qb * (slerpIter qb k q).dot qb ≤ numberEPSILON := by
    by_contra hcon
    push_neg at hcon
    have hth := slerpIter_theta q qb hq hqb K (fun k _ => hcon k)
    set θK := Real.arccos |(slerpIter qb K q).dot qb| with hθKdef
    have hθK0 : 0 ≤ θK := Real.arccos_nonneg _
    have hθKsmall : θK < sqrt numberEPSILON := by
      rw [hth]
      have hb : Real.arccos |q.dot qb| ≤ π := Real.arccos_le_pi _
      have h9n : (0 : ℝ) ≤ 0.9 ^ K := pow_nonneg (by norm_num) K
      calc 0.9 ^ K * Real.arccos |q.dot qb| ≤ 0.9 ^ K * π :=
          mul_le_mul_of_nonneg_left hb h9n
        _ < sqrt numberEPSILON / π * π := by
          exact mul_lt_mul_of_pos_right hK Real.pi_pos
        _ = sqrt numberEPSILON := by
          field_simp
    have haK : |(slerpIter qb K q).dot qb| = Real.cos θK := by
      rw [hθKdef,
        Real.cos_arccos (le_trans (by norm_num) (abs_nonneg _))
          (slerpIter_abs_le_one q qb hq hqb K)]
    have hgapK : 1 - (slerpIter qb K q).dot qb * (slerpIter qb K q).dot qb =
        Real.sin θK ^ 2 := by
      rw [Real.sin_sq, ← haK]
      have := abs_mul_abs_self ((slerpIter qb K q).dot qb)
      nlinarith [this]
    have hsinle : Real.sin θK ≤ θK := Real.sin_le hθK0
    have hsin0 : 0 ≤ Real.sin θK :=
      Real.sin_nonneg_of_nonneg_of_le_pi hθK0
        (le_trans (Real.arccos_le_pi _) (le_refl π))
    have hcontr : 1 - (slerpIter qb K q).dot qb * (slerpIter qb K q).dot qb <
        numberEPSILON := by
      rw [hgapK]
      have hsq : Real.sin θK ^ 2 ≤ θK ^ 2 := by nlinarith
      have hsq2 : θK ^ 2 < numberEPSILON := by
        have := Real.sq_sqrt (le_of_lt numberEPSILON_pos)
        nlinarith [hθKsmall, hθK0]
      linarith
    exact absurd hcontr (not_lt.mpr (le_of_lt (hcon K)))
  obtain ⟨k, hk⟩ := hn0
  obtain ⟨M, hM⟩ := exists_pow_lt_of_lt_one hε (show (81 : ℝ) / 82 < 1 by norm_num)
  refine ⟨k + M, fun n hn => ?_⟩
  have hgM := slerpIter_gap_decay q qb hq hqb k hk M
  have hgn := slerpIter_gap_mono q qb hq hqb hn
  have hgk1 : 1 - (slerpIter qb k q).dot qb * (slerpIter qb k q).dot qb ≤ 1 := by
    nlinarith [mul_self_nonneg ((slerpIter qb k q).dot qb)]
  have hpowM : (0 : ℝ) ≤ (81 / 82) ^ M := pow_nonneg (by norm_num) M
  have hlt : 1 - (slerpIter qb n q).dot qb * (slerpIter qb n q).dot qb < ε := by
    calc 1 - (slerpIter qb n q).dot qb * (slerpIter qb n q).dot qb ≤
        1 - (slerpIter qb (k + M) q).dot qb * (slerpIter qb (k + M) q).dot qb := hgn
      _ ≤ (81 / 82) ^ M *
          (1 - (slerpIter qb k q).dot qb * (slerpIter qb k q).dot qb) := hgM
      _ ≤ (81 / 82) ^ M * 1 := mul_le_mul_of_nonneg_left hgk1 hpowM
      _ < ε := by rw [mul_one]; exact hM
  have habs1 := slerpIter_abs_le_one q qb hq hqb n
  have habs0 := abs_nonneg ((slerpIter qb n q).dot qb)
  nlinarith [abs_mul_abs_self ((slerpIter qb n q).dot qb), hlt]

lemma distTo_eq (p b : Quat) (hp : p.dot p = 1) (hb : b.dot b = 1) :
    Quat.distTo p b = sqrt (2 - 2 * (p.dot b)) := by
  unfold Quat.distTo
  rw [Quat.length_eq_sqrt_dot]
  congr 1
  simp only [Quat.dot] at hp hb ⊢
  linear_combination hp + hb

lemma distTo_min (p b : Quat) (hp : p.dot p = 1) (hb : b.dot b = 1) :
    min (Quat.distTo p b) (Quat.distTo p (Quat.negQ b)) =
      sqrt (2 - 2 * |p.dot b|) := by
  have h1 := distTo_eq p b hp hb
  have h2 : Quat.distTo p (Quat.negQ b) = sqrt (2 + 2 * (p.dot b)) := by
    rw [distTo_eq p (Quat.negQ b) hp (negQ_unit hb), qdot_negQ]
    congr 1
    ring
  rcases le_or_lt 0 (p.dot b) with hd | hd
  · rw [abs_of_nonneg hd, h1, h2, min_eq_left (Real.sqrt_le_sqrt (by linarith))]
  · rw [abs_of_neg hd, h1, h2, min_eq_right (Real.sqrt_le_sqrt (by linarith))]
    congr 1
    ring

/-- C8 (amended): for the position/activation lerp the claim holds as
stated — every iterate lies between the previous iterate and the target,
the distance to the target never grows, and the iterates come within any
`ε` of the target after finitely many ticks.  For the orientation slerp the
same holds up to quaternion sign: `|⟨q_n, target⟩|` is nondecreasing and
the distance to the nearer of `target` and `-target` (the same rotation)
falls below any `ε`; convergence to the target quaternion itself fails in
general (see the antipodal counterexample). -/
theorem c8_smoothing_convergence_amended :
    (∀ (v target : Vec3) (n : ℕ),
      (min (lerpIter target n v).x target.x ≤ (lerpIter target (n + 1) v).x ∧
        (lerpIter target (n + 1) v).x ≤ max (lerpIter target n v).x target.x) ∧
      (min (lerpIter target n v).y target.y ≤ (lerpIter target (n + 1) v).y ∧
        (lerpIter target (n + 1) v).y ≤ max (lerpIter target n v).y target.y) ∧
      (min (lerpIter target n v).z target.z ≤ (lerpIter target (n + 1) v).z ∧
        (lerpIter target (n + 1) v).z ≤ max (lerpIter target n v).z target.z) ∧
      |(lerpIter target (n + 1) v).x - target.x| ≤ |(lerpIter target n v).x - target.x| ∧
      |(lerpIter target (n + 1) v).y - target.y| ≤ |(lerpIter target n v).y - target.y| ∧
      |(lerpIter target (n + 1) v).z - target.z| ≤ |(lerpIter target n v).z - target.z|) ∧
    (∀ (v target : Vec3) (ε : ℝ), 0 < ε → ∃ N : ℕ, ∀ n : ℕ, N ≤ n →
      |(lerpIter target n v).x - target.x| < ε ∧
      |(lerpIter target n v).y - target.y| < ε ∧
      |(lerpIter target n v).z - target.z| < ε) ∧
    (∀ q qb : Quat, q.dot q = 1 → qb.dot qb = 1 →
      (∀ n : ℕ, |(slerpIter qb n q).dot qb| ≤ |(slerpIter qb (n + 1) q).dot qb|) ∧
      (∀ ε : ℝ, 0 < ε → ∃ N : ℕ, ∀ n : ℕ, N ≤ n →
        min (Quat.distTo (slerpIter qb n q) qb)
          (Quat.distTo (slerpIter qb n q) (Quat.negQ qb)) < ε)) := by
  refine ⟨?_, ?_, ?_⟩
  · intro v target n
    have hdx := lerp_scalar_dist (lerpIter target n v).x target.x
    have hdy := lerp_scalar_dist (lerpIter target n v).y target.y
    have hdz := lerp_scalar_dist (lerpIter target n v).z target.z
    refine ⟨lerp_scalar_between _ _, lerp_scalar_between _ _, lerp_scalar_between _ _,
      ?_, ?_, ?_⟩
    · calc |(lerpIter target (n + 1) v).x - target.x| =
          0.9 * |(lerpIter target n v).x - target.x| := hdx
        _ ≤ |(lerpIter target n v).x - target.x| := by
          nlinarith [abs_nonneg ((lerpIter target n v).x - target.x)]
    · calc |(lerpIter target (n + 1) v).y - target.y| =
          0.9 * |(lerpIter target n v).y - target.y| := hdy
        _ ≤ |(lerpIter target n v).y - target.y| := by
          nlinarith [abs_nonneg ((lerpIter target n v).y - target.y)]
    · calc |(lerpIter target (n + 1) v).z - target.z| =
          0.9 * |(lerpIter target n v).z - target.z| := hdz
        _ ≤ |(lerpIter target n v).z - target.z| := by
          nlinarith [abs_nonneg ((lerpIter target n v).z - target.z)]
  · intro v target ε hε
    obtain ⟨N1, h1⟩ := pow_mul_abs_lt (v.x - target.x) ε hε
    obtain ⟨N2, h2⟩ := pow_mul_abs_lt (v.y - target.y) ε hε
    obtain ⟨N3, h3⟩ := pow_mul_abs_lt (v.z - target.z) ε hε
    refine ⟨max N1 (max N2 N3), fun n hn => ?_⟩
    refine ⟨?_, ?_, ?_⟩
    · rw [lerpIter_dist_x]
      exact h1 n (le_trans (le_max_left _ _) hn)
    · rw [lerpIter_dist_y]
      exact h2 n (le_trans (le_trans (le_max_left _ _) (le_max_right _ _)) hn)
    · rw [lerpIter_dist_z]
      exact h3 n (le_trans (le_trans (le_max_right _ _) (le_max_right _ _)) hn)
  · intro q qb hq hqb
    refine ⟨slerpIter_mono q qb hq hqb, ?_⟩
    intro ε hε
    obtain ⟨N, hN⟩ := slerpIter_conv q qb hq hqb (ε ^ 2 / 2) (by positivity)
    refine ⟨N, fun n hn => ?_⟩
    rw [distTo_min _ qb (slerpIter_unit q qb hq hqb n) hqb]
    rw [Real.sqrt_lt' hε]
    have := hN n hn
    linarith

/-- Witness for the amended C8: the off-origin start `(1,0,0)` toward the
origin, and the identity quaternion toward itself, with `ε = 1`. -/
theorem c8_smoothing_convergence_amended_witness :
    ((0 : ℝ) < 1 ∧ Quat.dot ⟨0, 0, 0, 1⟩ ⟨0, 0, 0, 1⟩ = 1) ∧
    (∃ N : ℕ, ∀ n : ℕ, N ≤ n →
      |(lerpIter ⟨0, 0, 0⟩ n ⟨1, 0, 0⟩).x - (⟨0, 0, 0⟩ : Vec3).x| < 1 ∧
      |(lerpIter ⟨0, 0, 0⟩ n ⟨1, 0, 0⟩).y - (⟨0, 0, 0⟩ : Vec3).y| < 1 ∧
      |(lerpIter ⟨0, 0, 0⟩ n ⟨1, 0, 0⟩).z - (⟨0, 0, 0⟩ : Vec3).z| < 1) ∧
    (∃ N : ℕ, ∀ n : ℕ, N ≤ n →
      min (Quat.distTo (slerpIter ⟨0, 0, 0, 1⟩ n ⟨0, 0, 0, 1⟩) ⟨0, 0, 0, 1⟩)
        (Quat.distTo (slerpIter ⟨0, 0, 0, 1⟩ n ⟨0, 0, 0, 1⟩)
          (Quat.negQ ⟨0, 0, 0, 1⟩)) < 1) := by
  have hunit : Quat.dot ⟨0, 0, 0, 1⟩ ⟨0, 0, 0, 1⟩ = 1 := by
    unfold Quat.dot
    norm_num
  refine ⟨⟨one_pos, hunit⟩, ?_, ?_⟩
  · exact c8_smoothing_convergence_amended.2.1 ⟨1, 0, 0⟩ ⟨0, 0, 0⟩ 1 one_pos
  · exact (c8_smoothing_convergence_amended.2.2 ⟨0, 0, 0, 1⟩ ⟨0, 0, 0, 1⟩
      hunit hunit).2 1 one_pos
